import Mathlib

/-!
Verification of the meow CLI agent core (`src/meowcli/handler.py`,
`src/meowcli/tools.py`, `src/meowcli/main.py`) against its natural-language
specification.

The development shallowly embeds the Python source: JSON values are an
inductive type, `json.loads` is a fuel-indexed recursive-descent parser over
the JSON grammar (numbers are kept as their lexemes, so no floating point
arithmetic is modelled), the agent loop `chat_with_bot` becomes a pair of
structurally recursive functions over an event script (user inputs, network
responses, shell outcomes), and the filesystem is an explicit association
list threaded through the tool executors.
-/

namespace Meow

/-! ## Messages and conversation history -/

/-- The role tag of a chat message, as used in `chat_with_bot`. -/
inductive Role where
  | system
  | user
  | assistant
deriving DecidableEq, Repr

/-- One entry of the conversation history: a Python dict
`{"role": ..., "content": ...}`. -/
structure Message where
  role : Role
  content : String
deriving DecidableEq, Repr

/-! ## JSON values

Python objects produced by `json.loads`.  Numbers are kept as their source
lexemes: no claim computes with numeric values, and this avoids modelling
floating point. -/

inductive Json where
  | null
  | bool (value : Bool)
  | num (lexeme : String)
  | str (value : String)
  | arr (items : List Json)
  | obj (entries : List (String × Json))
deriving Repr

/-- Python dict assignment `d[k] = v`: replaces the value at an existing key
(keeping its position) or appends a new binding at the end. -/
def dictInsert {α : Type} : List (String × α) → String → α → List (String × α)
  | [], k, v => [(k, v)]
  | (k', v') :: rest, k, v =>
    if k' == k then (k', v) :: rest else (k', v') :: dictInsert rest k v

/-- Building a Python dict from parsed members left to right (later duplicate
keys overwrite earlier ones, as in `json.loads`). -/
def collapseMembers (ms : List (String × Json)) : List (String × Json) :=
  ms.foldl (fun d kv => dictInsert d kv.1 kv.2) []

/-! ## The `json.loads` model -/

/-- JSON whitespace accepted by Python between tokens. -/
def isJsonWs : Char → Bool
  | ' ' => true
  | '\t' => true
  | '\n' => true
  | '\x0d' => true
  | _ => false

/-- Skip leading JSON whitespace. -/
def skipWs : List Char → List Char
  | [] => []
  | c :: cs => if isJsonWs c then skipWs cs else c :: cs

/-- Value of one hexadecimal digit, for `\uXXXX` escapes. -/
def hexVal (c : Char) : Option Nat :=
  let n := c.toNat
  if 48 ≤ n && n ≤ 57 then some (n - 48)
  else if 97 ≤ n && n ≤ 102 then some (n - 87)
  else if 65 ≤ n && n ≤ 70 then some (n - 55)
  else none

/-- Parse the body of a JSON string after the opening quote, returning the
decoded characters and the input after the closing quote.  Python's strict
mode rejects raw control characters. -/
def parseJStr : Nat → List Char → Option (List Char × List Char)
  | 0, _ => none
  | _ + 1, [] => none
  | fuel + 1, c :: rest =>
    if c == '"' then some ([], rest)
    else if c == '\\' then
      match rest with
      | [] => none
      | e :: rest2 =>
        if e == '"' then (parseJStr fuel rest2).map (fun p => ('"' :: p.1, p.2))
        else if e == '\\' then (parseJStr fuel rest2).map (fun p => ('\\' :: p.1, p.2))
        else if e == '/' then (parseJStr fuel rest2).map (fun p => ('/' :: p.1, p.2))
        else if e == 'b' then (parseJStr fuel rest2).map (fun p => ('\x08' :: p.1, p.2))
        else if e == 'f' then (parseJStr fuel rest2).map (fun p => ('\x0c' :: p.1, p.2))
        else if e == 'n' then (parseJStr fuel rest2).map (fun p => ('\n' :: p.1, p.2))
        else if e == 'r' then (parseJStr fuel rest2).map (fun p => ('\x0d' :: p.1, p.2))
        else if e == 't' then (parseJStr fuel rest2).map (fun p => ('\t' :: p.1, p.2))
        else if e == 'u' then
          match rest2 with
          | h1 :: h2 :: h3 :: h4 :: rest3 =>
            match hexVal h1, hexVal h2, hexVal h3, hexVal h4 with
            | some a, some b, some c3, some d =>
              (parseJStr fuel rest3).map
                (fun p => (Char.ofNat (((a * 16 + b) * 16 + c3) * 16 + d) :: p.1, p.2))
            | _, _, _, _ => none
          | _ => none
        else none
    else if c.toNat < 0x20 then none
    else (parseJStr fuel rest).map (fun p => (c :: p.1, p.2))

/-- The integer part of a JSON number: `0`, or a nonzero digit followed by
digits (no leading zeros). -/
def parseIntPart : List Char → Option (List Char × List Char)
  | [] => none
  | c :: rest =>
    if c == '0' then some (['0'], rest)
    else if c.isDigit then
      let p := rest.span Char.isDigit
      some (c :: p.1, p.2)
    else none

/-- Optional fraction part `.digits`. -/
def parseFracPart : List Char → List Char × List Char
  | [] => ([], [])
  | c :: rest =>
    if c == '.' then
      match rest with
      | d :: _ =>
        if d.isDigit then
          let p := rest.span Char.isDigit
          ('.' :: p.1, p.2)
        else ([], c :: rest)
      | [] => ([], c :: rest)
    else ([], c :: rest)

/-- Optional exponent part `(e|E)(+|-)?digits`. -/
def parseExpPart : List Char → List Char × List Char
  | [] => ([], [])
  | c :: rest =>
    if c == 'e' || c == 'E' then
      match rest with
      | s :: rest2 =>
        if s == '+' || s == '-' then
          match rest2 with
          | d :: _ =>
            if d.isDigit then
              let p := rest2.span Char.isDigit
              (c :: s :: p.1, p.2)
            else ([], c :: rest)
          | [] => ([], c :: rest)
        else if s.isDigit then
          let p := rest.span Char.isDigit
          (c :: p.1, p.2)
        else ([], c :: rest)
      | [] => ([], c :: rest)
    else ([], c :: rest)

/-- A JSON number token, returned as its lexeme. -/
def parseNumber (cs : List Char) : Option (String × List Char) :=
  match cs with
  | '-' :: rest =>
    match parseIntPart rest with
    | some (ip, r1) =>
      let f := parseFracPart r1
      let e := parseExpPart f.2
      some (String.mk ('-' :: ip ++ f.1 ++ e.1), e.2)
    | none => none
  | _ =>
    match parseIntPart cs with
    | some (ip, r1) =>
      let f := parseFracPart r1
      let e := parseExpPart f.2
      some (String.mk (ip ++ f.1 ++ e.1), e.2)
    | none => none

mutual

/-- Recursive-descent parser for one JSON value, modelling `json.loads`
(including Python's `NaN` / `Infinity` extensions). -/
def parseValue : Nat → List Char → Option (Json × List Char)
  | 0, _ => none
  | fuel + 1, cs =>
    match skipWs cs with
    | '{' :: r => (parseMembers fuel r).map (fun p => (Json.obj (collapseMembers p.1), p.2))
    | '[' :: r => (parseElems fuel r).map (fun p => (Json.arr p.1, p.2))
    | '"' :: r => (parseJStr (r.length + 1) r).map (fun p => (Json.str (String.mk p.1), p.2))
    | 't' :: 'r' :: 'u' :: 'e' :: r => some (Json.bool true, r)
    | 'f' :: 'a' :: 'l' :: 's' :: 'e' :: r => some (Json.bool false, r)
    | 'n' :: 'u' :: 'l' :: 'l' :: r => some (Json.null, r)
    | 'N' :: 'a' :: 'N' :: r => some (Json.num "NaN", r)
    | 'I' :: 'n' :: 'f' :: 'i' :: 'n' :: 'i' :: 't' :: 'y' :: r => some (Json.num "Infinity", r)
    | '-' :: 'I' :: 'n' :: 'f' :: 'i' :: 'n' :: 'i' :: 't' :: 'y' :: r =>
      some (Json.num "-Infinity", r)
    | rest => (parseNumber rest).map (fun p => (Json.num p.1, p.2))

/-- Object members after the opening brace: either an immediate `}` or a
comma-separated member sequence. -/
def parseMembers : Nat → List Char → Option (List (String × Json) × List Char)
  | 0, _ => none
  | fuel + 1, cs =>
    match skipWs cs with
    | '}' :: r => some ([], r)
    | rest => parseMemberSeq fuel rest

/-- A nonempty member sequence: `"key" : value` then `,` more or `}`. -/
def parseMemberSeq : Nat → List Char → Option (List (String × Json) × List Char)
  | 0, _ => none
  | fuel + 1, cs =>
    match cs with
    | '"' :: r =>
      match parseJStr (r.length + 1) r with
      | some (key, r1) =>
        match skipWs r1 with
        | ':' :: r2 =>
          match parseValue fuel r2 with
          | some (v, r3) =>
            match skipWs r3 with
            | ',' :: r4 =>
              (parseMemberSeq fuel (skipWs r4)).map
                (fun p => ((String.mk key, v) :: p.1, p.2))
            | '}' :: r4 => some ([(String.mk key, v)], r4)
            | _ => none
          | none => none
        | _ => none
      | none => none
    | _ => none

/-- Array elements after the opening bracket. -/
def parseElems : Nat → List Char → Option (List Json × List Char)
  | 0, _ => none
  | fuel + 1, cs =>
    match skipWs cs with
    | ']' :: r => some ([], r)
    | rest => parseElemSeq fuel rest

/-- A nonempty element sequence: `value` then `,` more or `]`. -/
def parseElemSeq : Nat → List Char → Option (List Json × List Char)
  | 0, _ => none
  | fuel + 1, cs =>
    match parseValue fuel cs with
    | some (v, r1) =>
      match skipWs r1 with
      | ',' :: r2 => (parseElemSeq fuel r2).map (fun p => (v :: p.1, p.2))
      | ']' :: r2 => some ([v], r2)
      | _ => none
    | none => none

end

/-- The model of Python's `json.loads`: parse one JSON document and require
only whitespace to remain.  The fuel bounds the recursion depth of the
descent: along any descent at most three fuel units are spent per consumed
input character (a bracket level costs a `parseValue`/`parseElems`/
`parseElemSeq` chain), so `3 * length + 3` never starves on any input. -/
def json_loads (s : String) : Option Json :=
  match parseValue (3 * s.data.length + 3) s.data with
  | some (v, rest) => if (skipWs rest).isEmpty then some v else none
  | none => none

/-! ## The action-extraction regex

`chat_with_bot` runs `re.search(r"\{.*\}", response_text, re.DOTALL)`.
`re_searchAux` is the regular-expression search semantics: try to match at
the current position (a `{` here, a greedy `.*`, then a `}`, i.e. the last
`}` strictly after the `{`); if no match starts here, retry from the next
position. -/

/-- Index of the first `\x7b` in a character list, if any. -/
def firstLB : List Char → Option Nat
  | [] => none
  | c :: cs => if c == '{' then some 0 else (firstLB cs).map (· + 1)

/-- Index of the last `\x7d` in a character list, if any. -/
def lastRB : List Char → Option Nat
  | [] => none
  | c :: cs =>
    match lastRB cs with
    | some j => some (j + 1)
    | none => if c == '}' then some 0 else none

/-- Leftmost-longest search for the pattern `\x7b.*\x7d` under `DOTALL`:
returns the start index and the end index (inclusive) of the match. -/
def re_searchAux : List Char → Option (Nat × Nat)
  | [] => none
  | c :: cs =>
    if c == '{' then
      match lastRB cs with
      | some j => some (0, j + 1)
      | none => (re_searchAux cs).map (fun p => (p.1 + 1, p.2 + 1))
    else (re_searchAux cs).map (fun p => (p.1 + 1, p.2 + 1))

/-- The substring of `s` from index `i` (inclusive) to index `j` (exclusive). -/
def strSlice (s : String) (i j : Nat) : String :=
  String.mk ((s.data.drop i).take (j - i))

/-- `re.search(r"\x7b.*\x7d", s, re.DOTALL)`, returning the matched span. -/
def re_search_braces (s : String) : Option String :=
  (re_searchAux s.data).map (fun p => strSlice s p.1 (p.2 + 1))

/-- The spec's wording of the Action Parser heuristic: the span from the
first `\x7b` to the last `\x7d` of the text, when the former precedes the
latter. -/
def firstLastSpan (s : String) : Option String :=
  match firstLB s.data, lastRB s.data with
  | some i, some j => if i < j then some (strSlice s i (j + 1)) else none
  | _, _ => none

/-- Whether the text contains a `\x7b` strictly before some `\x7d`
(a "brace pair"). -/
def hasBracePair (s : String) : Bool :=
  match firstLB s.data, lastRB s.data with
  | some i, some j => decide (i < j)
  | _, _ => false

/-! ## Tool executors (`tools.py`)

The filesystem and the shell are external collaborators: the filesystem is
an association list of file contents plus the directory listings visible to
`os.listdir`, together with the set of paths on which `open(path, "w")`
raises.  A shell invocation's outcome is supplied by the event script. -/

/-- The filesystem state visible to the tool executors. -/
structure FS where
  files : List (String × String)
  dirs : List (String × List String)
  badWrite : List String
deriving Repr

/-- Outcome of one `subprocess.run(command, shell=True, capture_output=True,
text=True)` call: either the launch raised (message of the exception), or the
command ran producing the captured streams. -/
inductive ShellOutcome where
  | launchErr (msg : String)
  | ran (stdout stderr : String)
deriving Repr

/-- Placeholder for the text of an OS-level exception interpolated into an
error message; its exact content is environment-dependent. -/
def osErrText : String := "oserror"

/-- `agent_list_directory(path)`: newline-joined entries or a caught-error
description.  A non-string path makes `os.listdir` raise, which the
`except Exception` turns into the same error shape. -/
def agent_list_directory (fs : FS) (path : Json) : String :=
  match path with
  | .str p =>
    match List.lookup p fs.dirs with
    | some entries =>
      "Содержимое директории \x27" ++ p ++ "\x27:\n" ++ String.intercalate "\n" entries
    | none => "Ошибка при просмотре директории: " ++ osErrText
  | _ => "Ошибка при просмотре директории: " ++ osErrText

/-- `agent_read_file(path)`: full contents in a fenced block or a
caught-error description. -/
def agent_read_file (fs : FS) (path : Json) : String :=
  match path with
  | .str p =>
    match List.lookup p fs.files with
    | some content =>
      "Содержимое файла \x27" ++ p ++ "\x27:\n```\n" ++ content ++ "\n```"
    | none => "Ошибка при чтении файла: " ++ osErrText
  | _ => "Ошибка при чтении файла: " ++ osErrText

/-- `agent_write_file(path, content)`: `open(path, "w")` truncates/creates
the file, `f.write(content)` stores the content.  `open` raising (modelled by
`badWrite`) leaves the filesystem unchanged; a non-string content raises in
`f.write` after the truncation already happened. -/
def agent_write_file (fs : FS) (path content : Json) : FS × String :=
  match path with
  | .str p =>
    if fs.badWrite.contains p then
      (fs, "Ошибка при записи файла: " ++ osErrText)
    else
      match content with
      | .str c =>
        ({ fs with files := dictInsert fs.files p c },
         "Файл \x27" ++ p ++ "\x27 успешно записан.")
      | _ =>
        ({ fs with files := dictInsert fs.files p "" },
         "Ошибка при записи файла: " ++ osErrText)
  | _ => (fs, "Ошибка при записи файла: " ++ osErrText)

/-- `agent_execute_shell(command)`: assembles `STDOUT:` / `STDERR:` sections
for the non-empty captured streams, a fixed marker when both are empty, or a
caught-error description when the launch raised (also when the command is not
a string, in which case `subprocess.run` itself raises). -/
def agent_execute_shell (command : Json) (o : ShellOutcome) : String :=
  match command with
  | .str _ =>
    match o with
    | .launchErr m => "Ошибка при выполнении команды: " ++ m
    | .ran stdout stderr =>
      let out1 := if stdout == "" then "" else "STDOUT:\n" ++ stdout ++ "\n"
      let out2 := if stderr == "" then "" else "STDERR:\n" ++ stderr ++ "\n"
      let output := out1 ++ out2
      if output == "" then "Команда выполнена без вывода." else output
  | _ => "Ошибка при выполнении команды: " ++ osErrText

/-! ## Configuration loading (`tools.py: load_config`) -/

/-- The per-provider default `{"api_key": "", "model": "default-model"}`. -/
def defaultProviderCfg : Json :=
  .obj [("api_key", .str ""), ("model", .str "default-model")]

/-- The in-memory default configuration. -/
def default_config : Json :=
  .obj [("default_provider", .str "base"),
        ("providers", .obj [("base", defaultProviderCfg),
                            ("openrouter", defaultProviderCfg),
                            ("gemini", defaultProviderCfg)])]

/-- Iteration order of `default_config["providers"]` in the backfill loop. -/
def providerKeys : List String := ["base", "openrouter", "gemini"]

/-- Substring test, for Python's `key in s` when `config["providers"]` is a
string. -/
def isSubstrOf (needle hay : String) : Bool :=
  hay.data.tails.any (fun t => needle.data.isPrefixOf t)

/-- One pass of `for provider in default_config["providers"]: if provider not
in config["providers"]: config["providers"][provider] = default...`.
`Except.error ()` marks an uncaught `TypeError`; a missing `"providers"` key
is the `KeyError` that the caller catches by returning the default config. -/
def backfill (cfg : Json) : List String → Except Unit Json
  | [] => .ok cfg
  | k :: ks =>
    match cfg with
    | .obj cm =>
      match List.lookup "providers" cm with
      | none => .ok default_config
      | some pv =>
        match pv with
        | .obj pm =>
          match List.lookup k pm with
          | some _ => backfill cfg ks
          | none =>
            backfill (.obj (dictInsert cm "providers"
              (.obj (dictInsert pm k defaultProviderCfg)))) ks
        | .str s => if isSubstrOf k s then backfill cfg ks else .error ()
        | .arr l =>
          if l.any (fun e => match e with | .str t => t == k | _ => false) then
            backfill cfg ks
          else .error ()
        | _ => .error ()
    | _ => .error ()

/-- Outcome of trying to read the configuration file: `absent` covers
`os.path.exists` returning false as well as the caught `FileNotFoundError`;
`unreadable` is a `PermissionError` (or other `OSError`) raised by `open`,
and `badEncoding` a `UnicodeDecodeError` raised while reading — neither of
those two is in the `except` clause of `load_config`. -/
inductive ReadOutcome where
  | absent
  | unreadable (msg : String)
  | badEncoding (msg : String)
  | content (raw : String)
deriving Repr

/-- `load_config()`: decode errors and a missing `"providers"` key fall back
to the default config; a read error other than `FileNotFoundError` escapes
`load_config` uncaught (modelled as `Except.error ()`, which aborts
`main()` at startup), as does a `TypeError` in the backfill loop. -/
def load_config : ReadOutcome → Except Unit Json
  | .absent => .ok default_config
  | .unreadable _ => .error ()
  | .badEncoding _ => .error ()
  | .content raw =>
    match json_loads raw with
    | none => .ok default_config
    | some cfg => backfill cfg providerKeys

/-! ## The agent loop (`handler.py: chat_with_bot`) -/

/-- The tool-use instructions installed as the single system message. -/
def SYSTEM_PROMPT : String :=
  "\nYou are a powerful CLI assistant running in a local environment. You can perform tasks by responding ONLY with a JSON object describing the tool you want to use. You can have a conversation with the user, but all your responses that are not a final answer MUST be in the specified JSON format.\n\nNEVER write any text outside of the JSON object. Do not add explanations or any extra characters.\n\nAvailable tools:\n1. `list_directory`: Lists files and directories.\n   - `path` (string, required): The path of the directory to list. Use \".\" for the current directory.\n\n2. `read_file`: Reads the content of a file.\n   - `path` (string, required): The path to the file.\n\n3. `write_file`: Writes content to a file. This will overwrite the file if it exists.\n   - `path` (string, required): The path to the file.\n   - `content` (string, required): The content to write.\n\n4. `execute_shell`: Executes a shell command.\n   - `command` (string, required): The command to execute.\n\n5. `ask_user`: Ask the user for clarification.\n   - `question` (string, required): The question to ask the user.\n\n6. `final_answer`: Give the final answer to the user and finish the task.\n   - `text` (string, required): The final text response.\n\n---\nBest Practices:\n- When writing HTML, create a separate .css file for styles and link it using a <link> tag in the HTML\x27s <head>. Do not use inline <style> tags unless specifically asked.\n- Always use the `write_file` tool to create or modify files. Do not use `execute_shell` with `echo` or other redirection operators for writing files.\n- Think step-by-step. For a complex task like \"create a website\", first write the HTML file, then the CSS file, then link them.\n---\n\nExample of a user asking to list files:\nUser: \"Show me the files in the current directory.\"\nYou:\n\x7b\n    \"tool\": \"list_directory\",\n    \"args\": \x7b\n        \"path\": \".\"\n    \x7d\n\x7d\n\nExample of providing a final answer:\nUser: \"Thank you!\"\nYou:\n\x7b\n    \"tool\": \"final_answer\",\n    \"args\": \x7b\n        \"text\": \"You\x27re welcome! Let me know if you need anything else.\"\n    \x7d\n\x7d\n"

/-- The `PROVIDER_URLS` table. -/
def PROVIDER_URLS : List (String × List (String × String)) :=
  [("base",
    [("models", "https://text.pollinations.ai/models"),
     ("chat", "https://text.pollinations.ai/openai")]),
   ("openrouter",
    [("models", "https://openrouter.ai/api/v1/models"),
     ("chat", "https://openrouter.ai/api/v1/chat/completions")]),
   ("gemini",
    [("models", "https://generativelanguage.googleapis.com/v1beta/models"),
     ("chat", "https://generativelanguage.googleapis.com/v1beta/models/gemini-pro:generateContent")])]

/-- `PROVIDER_URLS.get(provider, \x7b\x7d).get("chat")`. -/
def provider_chat_url (provider : String) : Option String :=
  (List.lookup provider PROVIDER_URLS).bind (List.lookup "chat")

/-- Serialization of one history entry in the OpenAI-style request body. -/
def roleStr : Role → String
  | .system => "system"
  | .user => "user"
  | .assistant => "assistant"

/-- A history message as the dict `{"role": ..., "content": ...}`. -/
def msgToJson (m : Message) : Json :=
  .obj [("role", .str (roleStr m.role)), ("content", .str m.content)]

/-- The request body built at the top of the inner loop.  For `gemini` the
source uses the dict comprehension
`{"parts": [{"text": m["content"]}] for m in history if m["role"] == "user"}`
inside a one-element list; a dict comprehension assigns the key `"parts"`
once per iteration, which is modelled by the `dictInsert` fold. -/
def build_request (provider modelName : String) (history : List Message) : Json :=
  if provider == "gemini" then
    .obj [("contents", .arr [.obj (history.foldl
      (fun d m =>
        if m.role == .user then
          dictInsert d "parts" (.arr [.obj [("text", .str m.content)]])
        else d)
      [])])]
  else
    .obj [("model", .str modelName), ("messages", .arr (history.map msgToJson))]

/-- Python exceptions raised by subscripting the response JSON:
`keyidx` is an `IndexError`/`KeyError` (caught at the bottom of the inner
loop), `typeErr` a `TypeError` (uncaught, aborts the session). -/
inductive PyExc where
  | keyidx
  | typeErr
deriving DecidableEq, Repr

/-- Python `j[k]` for a string key. -/
def jIdxS (j : Json) (k : String) : Except PyExc Json :=
  match j with
  | .obj m =>
    match List.lookup k m with
    | some v => .ok v
    | none => .error .keyidx
  | _ => .error .typeErr

/-- Python `j[i]` for integer index `i ≥ 0`: list indexing, `KeyError` on a
dict (JSON objects have string keys only), single-character slice of a
string. -/
def jIdxN (j : Json) (i : Nat) : Except PyExc Json :=
  match j with
  | .arr l =>
    match l.get? i with
    | some v => .ok v
    | none => .error .keyidx
  | .obj _ => .error .keyidx
  | .str s =>
    match s.data.get? i with
    | some c => .ok (.str (String.mk [c]))
    | none => .error .keyidx
  | _ => .error .typeErr

/-- Extraction of the reply text from the provider's response envelope:
`response_json["candidates"][0]["content"]["parts"][0]["text"]` for gemini,
`response_json["choices"][0]["message"]["content"]` otherwise. -/
def extract_reply (provider : String) (j : Json) : Except PyExc Json :=
  if provider == "gemini" then do
    let c ← jIdxS j "candidates"
    let c0 ← jIdxN c 0
    let ct ← jIdxS c0 "content"
    let ps ← jIdxS ct "parts"
    let p0 ← jIdxN ps 0
    jIdxS p0 "text"
  else do
    let ch ← jIdxS j "choices"
    let c0 ← jIdxN ch 0
    let m ← jIdxS c0 "message"
    jIdxS m "content"

/-- Python `str()` of a JSON value, as interpolated into the unknown-tool
message.  The rendering of lists and dicts is abstracted: no claim inspects
it. -/
def pyStr : Json → String
  | .null => "None"
  | .bool true => "True"
  | .bool false => "False"
  | .num lexeme => lexeme
  | .str s => s
  | .arr _ => "<list>"
  | .obj _ => "<dict>"

/-- Python `j == "name"` for a string literal. -/
def jsonEqStr (j : Json) (s : String) : Bool :=
  match j with
  | .str t => t == s
  | _ => false

/-- Outcome of handling one assistant reply (lines 379-451 of handler.py):
`plain` renders the reply and breaks (no action, or malformed JSON);
`askUser` / `finalAnswer` display and break; `tool` produced a ToolResult and
the loop continues; `crash` is an uncaught exception (`args` not a mapping);
`starved` means the event script supplied no outcome for a shell launch. -/
inductive DispatchOut where
  | plain
  | askUser
  | finalAnswer
  | tool (fs : FS) (shells : List ShellOutcome) (result : String)
  | crash
  | starved
deriving Repr

/-- Dispatch of a decoded action: `action.get("tool")` / `action.get("args",
\x7b\x7d)`, the `args.items()` display loop (which raises on a non-mapping
`args`), then the `if tool_name == ...` chain. -/
def dispatch_action (fs : FS) (shells : List ShellOutcome) (action : Json) : DispatchOut :=
  match action with
  | .obj m =>
    let tool_name : Json := (List.lookup "tool" m).getD .null
    let args : Json := (List.lookup "args" m).getD (.obj [])
    match args with
    | .obj am =>
      if jsonEqStr tool_name "list_directory" then
        .tool fs shells (agent_list_directory fs ((List.lookup "path" am).getD (.str ".")))
      else if jsonEqStr tool_name "read_file" then
        .tool fs shells (agent_read_file fs ((List.lookup "path" am).getD .null))
      else if jsonEqStr tool_name "write_file" then
        let r := agent_write_file fs ((List.lookup "path" am).getD .null)
          ((List.lookup "content" am).getD .null)
        .tool r.1 shells r.2
      else if jsonEqStr tool_name "execute_shell" then
        match shells with
        | o :: rest =>
          .tool fs rest (agent_execute_shell ((List.lookup "command" am).getD .null) o)
        | [] => .starved
      else if jsonEqStr tool_name "ask_user" then .askUser
      else if jsonEqStr tool_name "final_answer" then .finalAnswer
      else .tool fs shells ("Неизвестный инструмент: " ++ pyStr tool_name)
    | _ => .crash
  | _ => .crash

/-- The Action Parser plus dispatch: extract the brace span, decode it, fall
back to a plain final message on absence or decode failure, else dispatch. -/
def handle_reply (fs : FS) (shells : List ShellOutcome) (reply : String) : DispatchOut :=
  match re_search_braces reply with
  | none => .plain
  | some span =>
    match json_loads span with
    | none => .plain
    | some action => dispatch_action fs shells action

/-- A network event scripted for one inner-loop iteration: the POST either
raises a `RequestException` (transport failure, HTTP error status, or an
unparseable response body) or yields a response JSON. -/
inductive NetEvent where
  | fail
  | resp (body : Json)
deriving Repr

/-- The kind of a point where the loop blocks on its environment. -/
inductive AwaitKind where
  | userInput
  | modelReply
deriving DecidableEq, Repr

/-- A snapshot taken each time the loop awaits user input or a model reply:
the history at that point and, for model awaits, the request just sent. -/
structure TraceEntry where
  kind : AwaitKind
  history : List Message
  request : Option Json
deriving Repr

/-- How a loop run ended: `broke` leaves the inner loop normally (plain
reply, `ask_user`, `final_answer`); `errored` leaves it via the caught
transport/response-shape handlers; `crashed` is an uncaught exception
aborting the session; `starved` means the event script ran out; `exited` is
`/exit` or `/back`. -/
inductive EndKind where
  | broke
  | errored
  | crashed
  | starved
  | exited
deriving DecidableEq, Repr

/-- Result of the inner (tool-call) loop. -/
structure InnerOut where
  nets : List NetEvent
  history : List Message
  fs : FS
  shells : List ShellOutcome
  trace : List TraceEntry
  endk : EndKind
deriving Repr

/-- The inner loop of `chat_with_bot` (lines 344-460): build the request,
send it, extract the reply, append it as an assistant message, parse and
dispatch, append the ToolResult as a `TOOL_RESULT: `-prefixed user message
and repeat — or break back to the outer loop.  A reply whose extracted
content is not a string makes `re.search` raise (uncaught). -/
def innerLoop (provider modelName : String) :
    List NetEvent → List Message → FS → List ShellOutcome → InnerOut
  | [], h, fs, sh =>
    ⟨[], h, fs, sh, [⟨.modelReply, h, some (build_request provider modelName h)⟩], .starved⟩
  | net :: nets, h, fs, sh =>
    let entry : TraceEntry := ⟨.modelReply, h, some (build_request provider modelName h)⟩
    match net with
    | .fail => ⟨nets, h, fs, sh, [entry], .errored⟩
    | .resp body =>
      match extract_reply provider body with
      | .error .keyidx => ⟨nets, h, fs, sh, [entry], .errored⟩
      | .error .typeErr => ⟨nets, h, fs, sh, [entry], .crashed⟩
      | .ok v =>
        match v with
        | .str s =>
          let h' := h ++ [⟨.assistant, s⟩]
          match handle_reply fs sh s with
          | .plain => ⟨nets, h', fs, sh, [entry], .broke⟩
          | .askUser => ⟨nets, h', fs, sh, [entry], .broke⟩
          | .finalAnswer => ⟨nets, h', fs, sh, [entry], .broke⟩
          | .crash => ⟨nets, h', fs, sh, [entry], .crashed⟩
          | .starved => ⟨nets, h', fs, sh, [entry], .starved⟩
          | .tool fs' sh' tr =>
            let o := innerLoop provider modelName nets
              (h' ++ [⟨.user, "TOOL_RESULT: " ++ tr⟩]) fs' sh'
            ⟨o.nets, o.history, o.fs, o.shells, entry :: o.trace, o.endk⟩
        | _ => ⟨nets, h, fs, sh, [entry], .crashed⟩

/-- Result of a whole `/chat` session run. -/
structure SimOut where
  trace : List TraceEntry
  history : List Message
  endk : EndKind
deriving Repr

/-- `user_prompt.lower()`: ASCII lowering, character by character (the
session-termination keywords are ASCII). -/
def strLower (s : String) : String := String.mk (s.data.map Char.toLower)

/-- The outer loop of `chat_with_bot` (lines 334-342): await one line of
user input; `/exit` / `/back` (compared on the lowered input) end the
session, an empty line loops, otherwise the line is appended as a user
message and the inner loop runs. -/
def outerLoop (provider modelName : String) :
    List String → List NetEvent → List Message → FS → List ShellOutcome → SimOut
  | [], _, h, _, _ => ⟨[⟨.userInput, h, none⟩], h, .starved⟩
  | inp :: rest, nets, h, fs, sh =>
    let entry : TraceEntry := ⟨.userInput, h, none⟩
    if strLower inp == "/exit" || strLower inp == "/back" then ⟨[entry], h, .exited⟩
    else if inp == "" then
      let o := outerLoop provider modelName rest nets h fs sh
      ⟨entry :: o.trace, o.history, o.endk⟩
    else
      let h' := h ++ [⟨.user, inp⟩]
      let io := innerLoop provider modelName nets h' fs sh
      match io.endk with
      | .broke =>
        let o := outerLoop provider modelName rest io.nets io.history io.fs io.shells
        ⟨entry :: (io.trace ++ o.trace), o.history, o.endk⟩
      | .errored =>
        let o := outerLoop provider modelName rest io.nets io.history io.fs io.shells
        ⟨entry :: (io.trace ++ o.trace), o.history, o.endk⟩
      | .crashed => ⟨entry :: io.trace, io.history, .crashed⟩
      | _ => ⟨entry :: io.trace, io.history, .starved⟩

/-- A `/chat` session: history starts as the single system message. -/
def chat_with_bot_sim (provider modelName : String) (inputs : List String)
    (nets : List NetEvent) (shells : List ShellOutcome) (fs : FS) : SimOut :=
  outerLoop provider modelName inputs nets [⟨.system, SYSTEM_PROMPT⟩] fs shells

/-! ## The `/chat` command surface (`main.py` plus the `chat_with_bot`
preamble) -/

/-- Python truthiness of a JSON value (`if not model_name`, `if not
api_key`).  A number is falsy when its mantissa has no nonzero digit. -/
def numTruthy (lexeme : String) : Bool :=
  let mant := lexeme.data.takeWhile (fun c => !(c == 'e' || c == 'E'))
  mant.any (fun c => (c.isDigit && !(c == '0')) || c.isAlpha)

/-- Python truthiness of a JSON value. -/
def pyTruthy : Json → Bool
  | .null => false
  | .bool b => b
  | .num lexeme => numTruthy lexeme
  | .str s => !(s == "")
  | .arr l => !l.isEmpty
  | .obj m => !m.isEmpty

/-- How a `/chat [model]` invocation resolves before the loop can start. -/
inductive ChatOutcome where
  | noModel
  | noUrl
  | noKey
  | entered (modelName : Json)
  | badConfig
deriving Repr

/-- The `/chat` branch of `main()` (lines 91-100) followed by the
`chat_with_bot` preamble (lines 306-335): resolve the model name from the
argument or the stored default, reject a missing or placeholder model, then
reject a provider without a chat URL or with a falsy API key; otherwise the
agent loop is entered.  `badConfig` marks an uncaught exception caused by a
malformed configuration value. -/
def chat_command (config : Json) (args : List String) : ChatOutcome :=
  match config with
  | .obj cm =>
    match (List.lookup "providers" cm).getD (.obj []) with
    | .obj pm =>
      let pcMain : Except Unit Json :=
        match List.lookup "default_provider" cm with
        | some (.str p) => .ok ((List.lookup p pm).getD (.obj []))
        | some (.arr _) => .error ()
        | some (.obj _) => .error ()
        | _ => .ok (.obj [])
      match pcMain with
      | .error _ => .badConfig
      | .ok pc =>
        let modelOpt : Except Unit Json :=
          match args.head? with
          | some a => .ok (.str a)
          | none =>
            match pc with
            | .obj pcm => .ok ((List.lookup "model" pcm).getD .null)
            | _ => .error ()
        match modelOpt with
        | .error _ => .badConfig
        | .ok mv =>
          if !(pyTruthy mv) || jsonEqStr mv "default-model" then .noModel
          else
            let provider2 : Json := (List.lookup "default_provider" cm).getD (.str "base")
            let pc2 : Except Unit Json :=
              match provider2 with
              | .str p => .ok ((List.lookup p pm).getD (.obj []))
              | .arr _ => .error ()
              | .obj _ => .error ()
              | _ => .ok (.obj [])
            match pc2 with
            | .error _ => .badConfig
            | .ok pcv =>
              match pcv with
              | .obj pcm2 =>
                let api_key : Json := (List.lookup "api_key" pcm2).getD .null
                let chat_url : Option String :=
                  match provider2 with
                  | .str p => provider_chat_url p
                  | _ => none
                match chat_url with
                | none => .noUrl
                | some _ => if !(pyTruthy api_key) then .noKey else .entered mv
              | _ => .badConfig
    | _ => .badConfig
  | _ => .badConfig

/-! ## Claim-side definitions -/

/-- The amended shape of the gemini request: the dict comprehension collapses
to the last user message of the history (or an empty dict when there is
none). -/
def gemini_request_spec (history : List Message) : Json :=
  match (history.filter (fun m => m.role == .user)).getLast? with
  | none => .obj [("contents", .arr [.obj []])]
  | some m =>
    .obj [("contents", .arr [.obj [("parts", .arr [.obj [("text", .str m.content)]])]])]

/-- Does the string `t` occur as a string leaf of the JSON value within
nesting depth `fuel`?  Used to express that a history message is (not)
represented in a request body. -/
def occursStrFuel : Nat → String → Json → Bool
  | 0, _, _ => false
  | fuel + 1, t, j =>
    match j with
    | .null => false
    | .bool _ => false
    | .num _ => false
    | .str s => s == t
    | .arr l => l.any (occursStrFuel fuel t)
    | .obj m => m.any (fun kv => occursStrFuel fuel t kv.2)

/-- The spec's History pattern after the leading system message, as a DFA on
roles: state 0 expects the first user message, state 1 an assistant reply,
state 2 either a tool-result-as-user message or the next turn's user message.
Any system role is rejected. -/
def roleStep : Nat → Role → Option Nat
  | 0, .user => some 1
  | 1, .assistant => some 2
  | 2, .user => some 1
  | _, _ => none

/-- Run the pattern DFA from a state over a message list. -/
def patFold : Nat → List Message → Option Nat
  | st, [] => some st
  | st, m :: ms =>
    match roleStep st m.role with
    | some st' => patFold st' ms
    | none => none

/-- The claimed History invariant: one system message at index 0, then a
strict user/assistant alternation (tool results being user messages). -/
def historyOk (h : List Message) : Bool :=
  match h with
  | m :: rest => m.role == .system && (patFold 0 rest).isSome
  | [] => false

/-- Exactly one system message, at index 0. -/
def oneSystemAt0 (h : List Message) : Bool :=
  match h with
  | m :: rest => m.role == .system && rest.all (fun x => !(x.role == .system))
  | [] => false

/-- A network event that neither fails transport nor trips the
response-shape handlers: the response yields a string reply text. -/
def goodNetB (provider : String) (e : NetEvent) : Bool :=
  match e with
  | .fail => false
  | .resp b =>
    match extract_reply provider b with
    | .ok (.str _) => true
    | _ => false

/-- The recognized tool names of the dispatch chain. -/
def toolNames : List String :=
  ["list_directory", "read_file", "write_file", "execute_shell", "ask_user", "final_answer"]

/-! # Theorems -/

/-! ## Regex search and Action Parser lemmas -/

theorem re_searchAux_of_lastRB_none (cs : List Char) (h : lastRB cs = none) :
    re_searchAux cs = none := by
  induction cs with
  | nil => rfl
  | cons c cs ih =>
    simp only [lastRB] at h
    simp only [re_searchAux]
    rcases hcs : lastRB cs with _ | j
    · rw [hcs] at h
      by_cases hc : c == '}'
      · simp [hc] at h
      · simp [ih hcs]
    · rw [hcs] at h
      simp at h

theorem re_searchAux_spec (cs : List Char) (i j : Nat)
    (h : re_searchAux cs = some (i, j)) : cs.get? i = some '{' ∧ i < j := by
  induction cs generalizing i j with
  | nil => simp [re_searchAux] at h
  | cons c cs ih =>
    simp only [re_searchAux] at h
    by_cases hc : c == '{'
    · rw [if_pos hc] at h
      rcases hj : lastRB cs with _ | j0
      · rw [hj, re_searchAux_of_lastRB_none cs hj] at h
        simp at h
      · rw [hj] at h
        simp at h
        obtain ⟨hi, hjj⟩ := h
        subst hi; subst hjj
        exact ⟨by simpa using eq_of_beq hc, by omega⟩
    · rw [if_neg hc] at h
      rcases hr : re_searchAux cs with _ | p
      · rw [hr] at h; simp at h
      · rw [hr] at h
        rcases p with ⟨i0, j0⟩
        simp at h
        obtain ⟨hi, hjj⟩ := h
        obtain ⟨hget, hlt⟩ := ih i0 j0 hr
        subst hi; subst hjj
        exact ⟨by simpa using hget, by omega⟩

theorem re_search_braces_head (s span : String)
    (h : re_search_braces s = some span) : ∃ r, span.data = '{' :: r := by
  unfold re_search_braces at h
  rcases hr : re_searchAux s.data with _ | p
  · rw [hr] at h; simp at h
  · rw [hr] at h
    rcases p with ⟨i, j⟩
    obtain ⟨hget, hij⟩ := re_searchAux_spec s.data i j hr
    simp at h
    subst h
    obtain ⟨hlt, hgeteq⟩ := List.get?_eq_some.mp hget
    refine ⟨((s.data.drop (i+1)).take (j - i)), ?_⟩
    show ((s.data.drop i).take (j + 1 - i)) = _
    rw [List.drop_eq_getElem_cons hlt]
    have : j + 1 - i = (j - i) + 1 := by omega
    have hx : s.data[i] = '{' := by simpa [List.get_eq_getElem] using hgeteq
    rw [this, List.take_cons (by omega : 0 < j - i + 1)]
    simp [hx]


theorem skipWs_brace (r : List Char) : skipWs ('{' :: r) = '{' :: r := by
  simp [skipWs, isJsonWs]

theorem parseValue_brace_obj (f : Nat) (r rest : List Char) (v : Json)
    (h : parseValue f ('{' :: r) = some (v, rest)) : ∃ m, v = Json.obj m := by
  match f with
  | 0 => simp [parseValue] at h
  | f + 1 =>
    rw [parseValue, skipWs_brace] at h
    have h2 : Option.map (fun p => (Json.obj (collapseMembers p.1), p.2))
        (parseMembers f r) = some (v, rest) := h
    rcases hm : parseMembers f r with _ | p
    · rw [hm] at h2; simp at h2
    · rw [hm] at h2
      simp at h2
      exact ⟨collapseMembers p.1, h2.1.symm⟩

theorem json_loads_brace_obj (s : String) (r : List Char) (v : Json)
    (hh : s.data = '{' :: r) (h : json_loads s = some v) : ∃ m, v = Json.obj m := by
  unfold json_loads at h
  rw [hh] at h
  rcases hp : parseValue (3 * ('{' :: r).length + 3) ('{' :: r) with _ | p
  · rw [hp] at h; simp at h
  · rw [hp] at h
    obtain ⟨m, hm⟩ := parseValue_brace_obj _ _ _ _ hp
    rcases hempty : (skipWs p.2).isEmpty
    · simp [hempty] at h
    · simp [hempty] at h
      exact ⟨m, by rw [← h, hm]⟩

/-- C10: whenever the JSON decode of the extracted brace-delimited span
succeeds, the decoded value is a JSON object (the span starts with `\x7b`,
and a JSON document starting with `\x7b` can only parse as an object), so
the dispatch step's `action.get("tool")` / `action.get("args", \x7b\x7d)`
lookups operate on a mapping and never raise. -/
theorem decoded_action_is_mapping (s span : String) (j : Json)
    (h1 : re_search_braces s = some span) (h2 : json_loads span = some j) :
    ∃ m, j = Json.obj m := by
  obtain ⟨r, hr⟩ := re_search_braces_head s span h1
  exact json_loads_brace_obj span r j hr h2

/-- Witness for C10 at the reply `\x7b"a": 1\x7d`. -/
theorem decoded_action_is_mapping_witness :
    re_search_braces "\x7b\"a\": 1\x7d" = some "\x7b\"a\": 1\x7d"
    ∧ json_loads "\x7b\"a\": 1\x7d" = some (Json.obj [("a", Json.num "1")])
    ∧ ∃ m, Json.obj [("a", Json.num "1")] = Json.obj m :=
  ⟨rfl, rfl, decoded_action_is_mapping "\x7b\"a\": 1\x7d" "\x7b\"a\": 1\x7d"
    (Json.obj [("a", Json.num "1")]) rfl rfl⟩


theorem re_searchAux_eq_firstLast (cs : List Char) :
    re_searchAux cs =
      (match firstLB cs, lastRB cs with
       | some i, some j => if i < j then some (i, j) else none
       | _, _ => none) := by
  induction cs with
  | nil => rfl
  | cons c cs ih =>
    simp only [re_searchAux, firstLB, lastRB]
    by_cases hc : c == '{'
    · have hcn : (c == '}') = false := by
        have := eq_of_beq hc; subst this; decide
      rw [if_pos hc, if_pos hc, hcn]
      rcases hj : lastRB cs with _ | j
      · simp [re_searchAux_of_lastRB_none cs hj]
      · simp
    · rw [if_neg hc, if_neg hc, ih]
      rcases hi : firstLB cs with _ | i
      · rcases hj : lastRB cs with _ | j
        · by_cases hcn : c == '}' <;> simp [hcn]
        · simp
      · rcases hj : lastRB cs with _ | j
        · by_cases hcn : c == '}' <;> simp [hcn]
        · by_cases hij : i < j
          · simp [hij, Nat.succ_lt_succ_iff]
          · simp [hij, Nat.succ_lt_succ_iff]

/-- C3: the Action Parser considers exactly one candidate span — the
leftmost-longest match of the search `\x7b.*\x7d` equals the slice from the
first `\x7b` to the last `\x7d` — and when the JSON decode of that span
fails, the reply is handled as a plain final message (no action). -/
theorem action_parser_single_greedy_span (s : String) :
    re_search_braces s = firstLastSpan s
    ∧ ∀ (fs : FS) (sh : List ShellOutcome) (span : String),
        re_search_braces s = some span → json_loads span = none →
        handle_reply fs sh s = .plain := by
  constructor
  · unfold re_search_braces firstLastSpan
    rw [re_searchAux_eq_firstLast]
    rcases firstLB s.data with _ | i <;> rcases lastRB s.data with _ | j <;> simp
  · intro fs sh span hre hjson
    simp [handle_reply, hre, hjson]

/-- Witness for C3: the span equality at a mixed text, and the
decode-failure fallback at `x \x7b nope \x7d y`. -/
theorem action_parser_single_greedy_span_witness :
    re_search_braces "a\x7bb\x7dc" = firstLastSpan "a\x7bb\x7dc"
    ∧ re_search_braces "x \x7b nope \x7d y" = some "\x7b nope \x7d"
    ∧ json_loads "\x7b nope \x7d" = none
    ∧ handle_reply ⟨[], [], []⟩ [] "x \x7b nope \x7d y" = .plain :=
  ⟨(action_parser_single_greedy_span "a\x7bb\x7dc").1, rfl, rfl,
   (action_parser_single_greedy_span "x \x7b nope \x7d y").2 ⟨[], [], []⟩ []
     "\x7b nope \x7d" rfl rfl⟩

theorem hasBracePair_false_no_match (s : String) (h : hasBracePair s = false) :
    re_search_braces s = none := by
  unfold hasBracePair at h
  unfold re_search_braces
  rw [re_searchAux_eq_firstLast]
  rcases hi : firstLB s.data with _ | i
  · rcases lastRB s.data with _ | j <;> simp
  · rcases hj : lastRB s.data with _ | j
    · simp
    · rw [hi, hj] at h
      simp at h
      simp [h]

/-- C4: an assistant reply with no `\x7b`-before-`\x7d` pair yields no
action: the reply is handled as the plain final text of the turn, the inner
loop ends by the normal break (`broke`, not the `errored` transport/shape
path), the history gains exactly the assistant message, and no further
network event of the script is consumed before control returns to the user
prompt. -/
theorem no_brace_pair_plain_final (s : String) (fs : FS) (sh : List ShellOutcome)
    (provider modelName : String) (b : Json) (nets : List NetEvent)
    (h : List Message)
    (hpair : hasBracePair s = false)
    (hex : extract_reply provider b = .ok (.str s)) :
    handle_reply fs sh s = .plain
    ∧ (innerLoop provider modelName (.resp b :: nets) h fs sh).endk = .broke
    ∧ (innerLoop provider modelName (.resp b :: nets) h fs sh).history
        = h ++ [⟨.assistant, s⟩]
    ∧ (innerLoop provider modelName (.resp b :: nets) h fs sh).nets = nets := by
  have hre : re_search_braces s = none := hasBracePair_false_no_match s hpair
  have hp : handle_reply fs sh s = .plain := by simp [handle_reply, hre]
  exact ⟨hp, by simp [innerLoop, hex, hp], by simp [innerLoop, hex, hp],
    by simp [innerLoop, hex, hp]⟩

/-- Witness for C4 at the reply `hello` (no braces at all). -/
theorem no_brace_pair_plain_final_witness :
    hasBracePair "hello" = false
    ∧ extract_reply "base"
        (Json.obj [("choices", Json.arr [Json.obj [("message",
          Json.obj [("content", Json.str "hello")])]])])
        = .ok (Json.str "hello")
    ∧ handle_reply ⟨[], [], []⟩ [] "hello" = .plain :=
  ⟨rfl, rfl,
   (no_brace_pair_plain_final "hello" ⟨[], [], []⟩ [] "base" "m"
     (Json.obj [("choices", Json.arr [Json.obj [("message",
       Json.obj [("content", Json.str "hello")])]])]) [] [] rfl rfl).1⟩



/-! ## Tool dispatch and executor lemmas -/

theorem innerLoop_tool_step (provider modelName : String) (b : Json) (s : String)
    (nets : List NetEvent) (h : List Message) (fs fs' : FS)
    (sh sh' : List ShellOutcome) (tr : String)
    (hex : extract_reply provider b = .ok (.str s))
    (hhr : handle_reply fs sh s = .tool fs' sh' tr) :
    innerLoop provider modelName (.resp b :: nets) h fs sh =
      ⟨(innerLoop provider modelName nets
          (h ++ [⟨.assistant, s⟩, ⟨.user, "TOOL_RESULT: " ++ tr⟩]) fs' sh').nets,
       (innerLoop provider modelName nets
          (h ++ [⟨.assistant, s⟩, ⟨.user, "TOOL_RESULT: " ++ tr⟩]) fs' sh').history,
       (innerLoop provider modelName nets
          (h ++ [⟨.assistant, s⟩, ⟨.user, "TOOL_RESULT: " ++ tr⟩]) fs' sh').fs,
       (innerLoop provider modelName nets
          (h ++ [⟨.assistant, s⟩, ⟨.user, "TOOL_RESULT: " ++ tr⟩]) fs' sh').shells,
       ⟨.modelReply, h, some (build_request provider modelName h)⟩ ::
         (innerLoop provider modelName nets
           (h ++ [⟨.assistant, s⟩, ⟨.user, "TOOL_RESULT: " ++ tr⟩]) fs' sh').trace,
       (innerLoop provider modelName nets
          (h ++ [⟨.assistant, s⟩, ⟨.user, "TOOL_RESULT: " ++ tr⟩]) fs' sh').endk⟩ := by
  simp [innerLoop, hex, hhr]

theorem innerLoop_trace_model (provider modelName : String) :
    ∀ (nets : List NetEvent) (h : List Message) (fs : FS) (sh : List ShellOutcome),
      ∀ e ∈ (innerLoop provider modelName nets h fs sh).trace, e.kind = .modelReply := by
  intro nets
  induction nets with
  | nil =>
    intro h fs sh e he
    simp [innerLoop] at he
    subst he; rfl
  | cons net nets ih =>
    intro h fs sh e he
    simp only [innerLoop] at he
    split at he
    · simp at he; subst he; rfl
    · split at he
      · simp at he; subst he; rfl
      · simp at he; subst he; rfl
      · split at he
        · split at he
          · simp at he; subst he; rfl
          · simp at he; subst he; rfl
          · simp at he; subst he; rfl
          · simp at he; subst he; rfl
          · simp at he; subst he; rfl
          · simp at he
            rcases he with he | he
            · subst he; rfl
            · exact ih _ _ _ e he
        · simp at he; subst he; rfl


/-- C5 counterexample: for the reply `\x7b"tool":"bogus"\x7d` the synthesized
ToolResult is the Russian marker `Неизвестный инструмент: bogus`, not the
claimed `Unknown tool: bogus`. -/
theorem unknown_tool_marker_not_english :
    handle_reply ⟨[], [], []⟩ [] "\x7b\"tool\":\"bogus\"\x7d"
      = .tool ⟨[], [], []⟩ [] ("Неизвестный инструмент: " ++ "bogus")
    ∧ ("Неизвестный инструмент: " ++ "bogus") ≠ "Unknown tool: bogus" :=
  ⟨rfl, by decide⟩

/-- C5 (amended): an action whose `tool` value is unrecognized or absent —
any value other than one of the six known tool name strings, `None` when the
key is missing — synthesizes the ToolResult `Неизвестный инструмент: <name>`
where `<name>` is Python's `str()` of the tool value (`None` when absent);
it is appended to History as a user message prefixed `TOOL_RESULT: ` and the
inner loop continues with the next network event (no crash, no break).  This
holds whenever the action's `args` value (defaulted to an empty dict) is a
mapping; when `args` is present but not a mapping, the `args.items()`
display loop instead raises an uncaught `AttributeError` and the session
aborts, whatever the tool name. -/
theorem unknown_tool_synthesized_result (fs : FS) (sh : List ShellOutcome)
    (m am : List (String × Json))
    (hargs : (List.lookup "args" m).getD (.obj []) = .obj am)
    (hunk : ∀ t, (List.lookup "tool" m).getD .null = Json.str t →
        toolNames.contains t = false) :
    dispatch_action fs sh (.obj m)
      = .tool fs sh ("Неизвестный инструмент: "
          ++ pyStr ((List.lookup "tool" m).getD .null))
    ∧ (∀ (provider modelName : String) (b : Json) (s : String)
        (nets : List NetEvent) (h : List Message) (tr : String),
        extract_reply provider b = .ok (.str s) →
        handle_reply fs sh s = .tool fs sh tr →
        innerLoop provider modelName (.resp b :: nets) h fs sh =
          ⟨(innerLoop provider modelName nets
              (h ++ [⟨.assistant, s⟩, ⟨.user, "TOOL_RESULT: " ++ tr⟩]) fs sh).nets,
           (innerLoop provider modelName nets
              (h ++ [⟨.assistant, s⟩, ⟨.user, "TOOL_RESULT: " ++ tr⟩]) fs sh).history,
           (innerLoop provider modelName nets
              (h ++ [⟨.assistant, s⟩, ⟨.user, "TOOL_RESULT: " ++ tr⟩]) fs sh).fs,
           (innerLoop provider modelName nets
              (h ++ [⟨.assistant, s⟩, ⟨.user, "TOOL_RESULT: " ++ tr⟩]) fs sh).shells,
           ⟨.modelReply, h, some (build_request provider modelName h)⟩ ::
             (innerLoop provider modelName nets
               (h ++ [⟨.assistant, s⟩, ⟨.user, "TOOL_RESULT: " ++ tr⟩]) fs sh).trace,
           (innerLoop provider modelName nets
              (h ++ [⟨.assistant, s⟩, ⟨.user, "TOOL_RESULT: " ++ tr⟩]) fs sh).endk⟩)
    ∧ (∀ (m2 : List (String × Json)) (a : Json),
        List.lookup "args" m2 = some a →
        (∀ am2, ¬(a = Json.obj am2)) →
        dispatch_action fs sh (.obj m2) = .crash)
    ∧ (∀ (provider modelName : String) (b : Json) (s : String)
        (nets : List NetEvent) (h : List Message) (fs2 : FS)
        (sh2 : List ShellOutcome),
        extract_reply provider b = .ok (.str s) →
        handle_reply fs2 sh2 s = .crash →
        (innerLoop provider modelName (.resp b :: nets) h fs2 sh2).endk
          = .crashed) := by
  refine ⟨?_, ?_, ?_, ?_⟩
  · rcases htn : (List.lookup "tool" m).getD .null with _ | bv | lx | t | l | mo
    · simp [dispatch_action, hargs, htn, jsonEqStr]
    · simp [dispatch_action, hargs, htn, jsonEqStr]
    · simp [dispatch_action, hargs, htn, jsonEqStr]
    · have hfalse := hunk t htn
      simp [toolNames] at hfalse
      obtain ⟨h1, h2, h3, h4, h5, h6⟩ := hfalse
      simp [dispatch_action, hargs, htn, jsonEqStr, h1, h2, h3, h4, h5, h6]
    · simp [dispatch_action, hargs, htn, jsonEqStr]
    · simp [dispatch_action, hargs, htn, jsonEqStr]
  · intro provider modelName b s nets h tr hex hhr
    exact innerLoop_tool_step provider modelName b s nets h fs fs sh sh tr hex hhr
  · intro m2 a ha hno
    rcases a with _ | bv | lx | t | l | mo
    · simp [dispatch_action, ha]
    · simp [dispatch_action, ha]
    · simp [dispatch_action, ha]
    · simp [dispatch_action, ha]
    · simp [dispatch_action, ha]
    · exact absurd rfl (hno mo)
  · intro provider modelName b s nets h fs2 sh2 hex hhr
    simp [innerLoop, hex, hhr]

/-- Witness for C5 (amended) at the decoded actions of `\x7b"tool":"bogus"\x7d`
(unrecognized string) and `\x7b\x7d` (tool key absent, so the name is `None`). -/
theorem unknown_tool_synthesized_result_witness :
    dispatch_action ⟨[], [], []⟩ [] (.obj [("tool", Json.str "bogus")])
      = .tool ⟨[], [], []⟩ [] ("Неизвестный инструмент: " ++ "bogus")
    ∧ dispatch_action ⟨[], [], []⟩ [] (.obj [])
      = .tool ⟨[], [], []⟩ [] ("Неизвестный инструмент: " ++ "None") :=
  ⟨(unknown_tool_synthesized_result ⟨[], [], []⟩ [] [("tool", Json.str "bogus")] []
      rfl (fun t ht => by cases ht; decide)).1,
   (unknown_tool_synthesized_result ⟨[], [], []⟩ [] [] []
      rfl (fun t ht => Json.noConfusion ht)).1⟩


theorem lookup_dictInsert_self {α : Type} (l : List (String × α)) (k : String) (v : α) :
    List.lookup k (dictInsert l k v) = some v := by
  induction l with
  | nil => simp [dictInsert, List.lookup]
  | cons kv l ih =>
    rcases kv with ⟨k', v'⟩
    by_cases hk : k' = k
    · subst hk
      simp [dictInsert, List.lookup]
    · have h1 : (k' == k) = false := beq_eq_false_iff_ne.mpr hk
      have h2 : (k == k') = false := beq_eq_false_iff_ne.mpr (Ne.symm hk)
      simp [dictInsert, List.lookup, h1, h2, ih]

theorem lookup_dictInsert_other {α : Type} (l : List (String × α)) (k q : String) (v : α)
    (h : ¬(q = k)) : List.lookup q (dictInsert l k v) = List.lookup q l := by
  have hq : (q == k) = false := beq_eq_false_iff_ne.mpr h
  induction l with
  | nil => simp [dictInsert, List.lookup, hq]
  | cons kv l ih =>
    rcases kv with ⟨k', v'⟩
    by_cases hk : k' = k
    · subst hk
      simp [dictInsert, List.lookup, hq]
    · have h1 : (k' == k) = false := beq_eq_false_iff_ne.mpr hk
      by_cases hq2 : q = k'
      · subst hq2
        simp [dictInsert, List.lookup, h1]
      · have h2 : (q == k') = false := beq_eq_false_iff_ne.mpr hq2
        simp [dictInsert, List.lookup, h1, h2, ih]


/-- C6: `write_file` with string path and content overwrites exactly that
file with exactly that content (other files untouched) and returns the
success marker (an error description when `open` fails); the dispatch step
produces the updated filesystem and the result, the inner loop appends the
result as a `TOOL_RESULT: `-prefixed user message and goes straight back to
the next model call, and the inner loop never awaits user input. -/
theorem write_file_applies_and_continues (fs : FS) (sh : List ShellOutcome)
    (p c : String) (hw : fs.badWrite.contains p = false) :
    List.lookup p (agent_write_file fs (.str p) (.str c)).1.files = some c
    ∧ (∀ q, ¬(q = p) → List.lookup q (agent_write_file fs (.str p) (.str c)).1.files
        = List.lookup q fs.files)
    ∧ (agent_write_file fs (.str p) (.str c)).2
        = "Файл \x27" ++ p ++ "\x27 успешно записан."
    ∧ (∀ (fs' : FS) (p' : String) (c' : Json), fs'.badWrite.contains p' = true →
        agent_write_file fs' (.str p') c'
          = (fs', "Ошибка при записи файла: " ++ osErrText))
    ∧ dispatch_action fs sh
        (.obj [("tool", .str "write_file"),
               ("args", .obj [("path", .str p), ("content", .str c)])])
        = .tool (agent_write_file fs (.str p) (.str c)).1 sh
            (agent_write_file fs (.str p) (.str c)).2
    ∧ (∀ (provider modelName : String) (b : Json) (s : String)
        (nets : List NetEvent) (h : List Message) (fs2 fs2' : FS)
        (sh2 sh2' : List ShellOutcome) (tr : String),
        extract_reply provider b = .ok (.str s) →
        handle_reply fs2 sh2 s = .tool fs2' sh2' tr →
        (innerLoop provider modelName (.resp b :: nets) h fs2 sh2).endk
          = (innerLoop provider modelName nets
              (h ++ [⟨.assistant, s⟩, ⟨.user, "TOOL_RESULT: " ++ tr⟩]) fs2' sh2').endk
        ∧ (innerLoop provider modelName (.resp b :: nets) h fs2 sh2).history
          = (innerLoop provider modelName nets
              (h ++ [⟨.assistant, s⟩, ⟨.user, "TOOL_RESULT: " ++ tr⟩]) fs2' sh2').history)
    ∧ (∀ (provider modelName : String) (nets : List NetEvent) (h : List Message),
        ∀ e ∈ (innerLoop provider modelName nets h fs sh).trace,
          e.kind = .modelReply) := by
  have hw2 : ¬(p ∈ fs.badWrite) := by simpa using hw
  refine ⟨?_, ?_, ?_, ?_, ?_, ?_, ?_⟩
  · simp [agent_write_file, hw2, lookup_dictInsert_self]
  · intro q hq
    simp [agent_write_file, hw2, lookup_dictInsert_other fs.files p q c hq]
  · simp [agent_write_file, hw2]
  · intro fs' p' c' hbad
    have hbad2 : p' ∈ fs'.badWrite := by simpa using hbad
    simp [agent_write_file, hbad2]
  · simp [dispatch_action, jsonEqStr, List.lookup]
  · intro provider modelName b s nets h fs2 fs2' sh2 sh2' tr hex hhr
    rw [innerLoop_tool_step provider modelName b s nets h fs2 fs2' sh2 sh2' tr hex hhr]
    exact ⟨rfl, rfl⟩
  · intro provider modelName nets h
    exact innerLoop_trace_model provider modelName nets h fs sh

/-- Witness for C6: writing `abc` to `x.txt` on the empty filesystem. -/
theorem write_file_applies_and_continues_witness :
    (FS.mk [] [] []).badWrite.contains "x.txt" = false
    ∧ List.lookup "x.txt"
        (agent_write_file ⟨[], [], []⟩ (.str "x.txt") (.str "abc")).1.files = some "abc"
    ∧ (agent_write_file ⟨[], [], []⟩ (.str "x.txt") (.str "abc")).2
        = "Файл \x27x.txt\x27 успешно записан." :=
  ⟨by decide,
   (write_file_applies_and_continues ⟨[], [], []⟩ [] "x.txt" "abc" (by decide)).1,
   (write_file_applies_and_continues ⟨[], [], []⟩ [] "x.txt" "abc" (by decide)).2.2.1⟩


theorem ne_empty_of_length_pos (s : String) (h : 0 < s.length) : ¬(s = "") := by
  intro hc
  subst hc
  simp at h

theorem append_left_pos (a b : String) (h : 0 < a.length) : 0 < (a ++ b).length := by
  rw [String.length_append]
  omega

/-- C7: for every command string, `execute_shell` returns a text and never
raises: the caught-launch-error description, the fixed no-output marker when
both captured streams are empty, and otherwise a block carrying a `STDOUT:`
section exactly when stdout is non-empty and a `STDERR:` section exactly
when stderr is non-empty. -/
theorem execute_shell_result_shapes (c : String) (o : ShellOutcome) :
    (∀ m, o = .launchErr m →
      agent_execute_shell (.str c) o = "Ошибка при выполнении команды: " ++ m)
    ∧ (∀ stdout stderr, o = .ran stdout stderr →
        ((stdout = "" ∧ stderr = "") →
          agent_execute_shell (.str c) o = "Команда выполнена без вывода.")
        ∧ (¬(stdout = "") → ∃ t, agent_execute_shell (.str c) o
            = "STDOUT:\n" ++ stdout ++ "\n" ++ t)
        ∧ (¬(stderr = "") → ∃ t, agent_execute_shell (.str c) o
            = t ++ ("STDERR:\n" ++ stderr ++ "\n"))) := by
  constructor
  · intro m hm
    subst hm
    rfl
  · intro stdout stderr ho
    subst ho
    refine ⟨?_, ?_, ?_⟩
    · rintro ⟨h1, h2⟩
      subst h1; subst h2
      rfl
    · intro hout
      have h1 : (stdout == "") = false := beq_eq_false_iff_ne.mpr hout
      by_cases herr : stderr = ""
      · subst herr
        refine ⟨"", ?_⟩
        simp [agent_execute_shell, h1]
        intro hcontra
        have hpos : (0 : Nat) < ("STDOUT:\n" : String).length := by decide
        exact absurd hcontra
          (ne_empty_of_length_pos _ (append_left_pos _ _ (append_left_pos _ _ hpos)))
      · refine ⟨"STDERR:\n" ++ stderr ++ "\n", ?_⟩
        simp [agent_execute_shell, h1, herr]
        intro hcontra
        have hpos : (0 : Nat) < ("STDOUT:\n" : String).length := by decide
        exact absurd hcontra
          (ne_empty_of_length_pos _
            (append_left_pos _ _ (append_left_pos _ _ (append_left_pos _ _ hpos))))
    · intro herr
      by_cases hout : stdout = ""
      · subst hout
        refine ⟨"", ?_⟩
        simp [agent_execute_shell, herr]
        intro hcontra
        have hpos : (0 : Nat) < ("STDERR:\n" : String).length := by decide
        exact absurd hcontra
          (ne_empty_of_length_pos _ (append_left_pos _ _ (append_left_pos _ _ hpos)))
      · have h1 : (stdout == "") = false := beq_eq_false_iff_ne.mpr hout
        refine ⟨"STDOUT:\n" ++ stdout ++ "\n", ?_⟩
        simp [agent_execute_shell, h1, herr, String.append_assoc]
        intro hcontra
        exact absurd hcontra (ne_empty_of_length_pos _ (append_left_pos _ _ (by decide)))

/-- Witness for C7: `echo hi` captured `hi\n` on stdout and nothing on
stderr, so the result carries `hi` under the `STDOUT:` marker; the empty
command with no output yields the fixed marker. -/
theorem execute_shell_result_shapes_witness :
    (¬(("hi\n" : String) = ""))
    ∧ (∃ t, agent_execute_shell (.str "echo hi") (.ran "hi\n" "")
        = "STDOUT:\n" ++ "hi\n" ++ "\n" ++ t)
    ∧ agent_execute_shell (.str "") (.ran "" "") = "Команда выполнена без вывода." :=
  ⟨by decide,
   ((execute_shell_result_shapes "echo hi" (.ran "hi\n" "")).2 "hi\n" "" rfl).2.1
     (by decide),
   ((execute_shell_result_shapes "" (.ran "" "")).2 "" "" rfl).1 ⟨rfl, rfl⟩⟩



/-! ## Configuration loading and request-shape lemmas -/

theorem dictInsert_append_of_lookup_none {α : Type} (l : List (String × α))
    (k : String) (v : α) (h : List.lookup k l = none) :
    dictInsert l k v = l ++ [(k, v)] := by
  induction l with
  | nil => rfl
  | cons kv l ih =>
    rcases kv with ⟨k', v'⟩
    by_cases hk : k = k'
    · subst hk
      simp only [List.lookup, beq_self_eq_true] at h
      exact Option.noConfusion h
    · have h1 : (k == k') = false := beq_eq_false_iff_ne.mpr hk
      have h2 : (k' == k) = false := beq_eq_false_iff_ne.mpr (Ne.symm hk)
      simp only [List.lookup, h1] at h
      simp [dictInsert, h2, ih h]

theorem lookup_append_right_of_none {α : Type} (l1 l2 : List (String × α)) (k : String)
    (h : List.lookup k l1 = none) :
    List.lookup k (l1 ++ l2) = List.lookup k l2 := by
  induction l1 with
  | nil => simp
  | cons kv l ih =>
    rcases kv with ⟨k', v'⟩
    by_cases hk : (k == k')
    · simp only [List.lookup, hk] at h
      exact Option.noConfusion h
    · simp only [Bool.not_eq_true] at hk
      simp only [List.lookup, hk] at h
      simp only [List.cons_append, List.lookup, hk]
      exact ih h

theorem lookup_append_left {α : Type} (l1 l2 : List (String × α)) (k : String) (v : α)
    (h : List.lookup k l1 = some v) : List.lookup k (l1 ++ l2) = some v := by
  induction l1 with
  | nil => simp [List.lookup] at h
  | cons kv l ih =>
    rcases kv with ⟨k', v'⟩
    by_cases hk : (k == k')
    · simp only [List.lookup, hk] at h
      simp only [List.cons_append, List.lookup, hk]
      exact h
    · simp only [Bool.not_eq_true] at hk
      simp only [List.lookup, hk] at h
      simp only [List.cons_append, List.lookup, hk]
      exact ih h

/-- C8 counterexample: an existing configuration file that cannot be read
(`PermissionError`) or decoded as UTF-8 (`UnicodeDecodeError`) does not
silently yield the default config — neither exception is in the `except`
clause of `load_config`, so it escapes (modelled as `Except.error ()`)
and aborts `main()` at startup; likewise a readable file whose JSON
document is not an object (such as `[[[0]]]`) raises an uncaught
`TypeError` in the backfill loop. -/
theorem load_config_unreadable_crashes :
    load_config (.unreadable osErrText) = .error ()
    ∧ load_config (.badEncoding osErrText) = .error ()
    ∧ (∀ j : Json, ¬((Except.error () : Except Unit Json) = .ok j))
    ∧ load_config (.content "[[[0]]]") = .error () :=
  ⟨rfl, rfl, fun _ h => Except.noConfusion h, rfl⟩

/-- C8 (amended): a configuration file that parses as a JSON object whose
`providers` mapping holds `base` and `openrouter` but lacks `gemini` is
loaded with `gemini` back-filled to `{"api_key": "", "model":
"default-model"}`, appended at the end of the providers mapping, while the
saved `base` and `openrouter` entries (and every other key of the document)
are preserved unchanged; a file whose text fails to decode as JSON, or an
absent file (including the caught `FileNotFoundError`), silently yields the
in-memory default configuration — but an existing file that cannot be read
(`PermissionError`) or decoded as UTF-8 (`UnicodeDecodeError`) raises
uncaught and aborts startup instead of falling back to the default. -/
theorem load_config_backfills_gemini
    (raw : String) (cm pm : List (String × Json)) (b o : Json)
    (hparse : json_loads raw = some (.obj cm))
    (hprov : List.lookup "providers" cm = some (.obj pm))
    (hbase : List.lookup "base" pm = some b)
    (hopen : List.lookup "openrouter" pm = some o)
    (hgem : List.lookup "gemini" pm = none) :
    load_config (.content raw)
      = .ok (.obj (dictInsert cm "providers"
          (.obj (pm ++ [("gemini", defaultProviderCfg)]))))
    ∧ List.lookup "gemini" (pm ++ [("gemini", defaultProviderCfg)])
        = some defaultProviderCfg
    ∧ List.lookup "base" (pm ++ [("gemini", defaultProviderCfg)]) = some b
    ∧ List.lookup "openrouter" (pm ++ [("gemini", defaultProviderCfg)]) = some o
    ∧ (∀ raw2, json_loads raw2 = none →
        load_config (.content raw2) = .ok default_config)
    ∧ load_config .absent = .ok default_config
    ∧ (∀ msg, load_config (.unreadable msg) = .error ())
    ∧ (∀ msg, load_config (.badEncoding msg) = .error ()) := by
  refine ⟨?_, ?_, ?_, ?_, ?_, rfl, fun _ => rfl, fun _ => rfl⟩
  · simp only [load_config, hparse, providerKeys, backfill, hprov, hbase, hopen, hgem]
    rw [dictInsert_append_of_lookup_none pm "gemini" defaultProviderCfg hgem]
  · rw [lookup_append_right_of_none pm _ "gemini" hgem]
    simp [List.lookup]
  · exact lookup_append_left pm _ "base" b hbase
  · exact lookup_append_left pm _ "openrouter" o hopen
  · intro raw2 hbad
    simp [load_config, hbad]

/-- Witness for C8 (amended) at a config file that stores `base` and
`openrouter` keys but no `gemini`. -/
theorem load_config_backfills_gemini_witness :
    json_loads "\x7b\"default_provider\":\"base\",\"providers\":\x7b\"base\":\x7b\"api_key\":\"k1\",\"model\":\"m1\"\x7d,\"openrouter\":\x7b\"api_key\":\"k2\",\"model\":\"m2\"\x7d\x7d\x7d"
      = some (.obj
          [("default_provider", .str "base"),
           ("providers", .obj
             [("base", .obj [("api_key", .str "k1"), ("model", .str "m1")]),
              ("openrouter", .obj [("api_key", .str "k2"), ("model", .str "m2")])])])
    ∧ load_config (.content "\x7b\"default_provider\":\"base\",\"providers\":\x7b\"base\":\x7b\"api_key\":\"k1\",\"model\":\"m1\"\x7d,\"openrouter\":\x7b\"api_key\":\"k2\",\"model\":\"m2\"\x7d\x7d\x7d")
      = .ok (.obj
          [("default_provider", .str "base"),
           ("providers", .obj
             [("base", .obj [("api_key", .str "k1"), ("model", .str "m1")]),
              ("openrouter", .obj [("api_key", .str "k2"), ("model", .str "m2")]),
              ("gemini", defaultProviderCfg)])]) :=
  ⟨rfl,
   (load_config_backfills_gemini
     "\x7b\"default_provider\":\"base\",\"providers\":\x7b\"base\":\x7b\"api_key\":\"k1\",\"model\":\"m1\"\x7d,\"openrouter\":\x7b\"api_key\":\"k2\",\"model\":\"m2\"\x7d\x7d\x7d"
     [("default_provider", .str "base"),
      ("providers", .obj
        [("base", .obj [("api_key", .str "k1"), ("model", .str "m1")]),
         ("openrouter", .obj [("api_key", .str "k2"), ("model", .str "m2")])])]
     [("base", .obj [("api_key", .str "k1"), ("model", .str "m1")]),
      ("openrouter", .obj [("api_key", .str "k2"), ("model", .str "m2")])]
     (.obj [("api_key", .str "k1"), ("model", .str "m1")])
     (.obj [("api_key", .str "k2"), ("model", .str "m2")])
     rfl rfl rfl rfl rfl).1⟩

theorem gemini_fold_collapses (h : List Message) :
    ∀ d : List (String × Json), (d = [] ∨ ∃ x, d = [("parts", x)]) →
    h.foldl
      (fun d m =>
        if m.role == .user then
          dictInsert d "parts" (.arr [.obj [("text", .str m.content)]])
        else d)
      d
    = (match (h.filter (fun m => m.role == .user)).getLast? with
       | none => d
       | some m => [("parts", Json.arr [Json.obj [("text", Json.str m.content)]])]) := by
  induction h using List.reverseRecOn with
  | nil => intro d hd; rfl
  | append_singleton h m ih =>
    intro d hd
    rw [List.foldl_append, List.filter_append]
    by_cases hm : m.role == .user
    · simp only [List.foldl_cons, List.foldl_nil, hm, if_true]
      have hfilter : List.filter (fun m => m.role == .user) [m] = [m] := by
        simp [List.filter, hm]
      rw [hfilter, List.getLast?_concat]
      rw [ih d hd]
      rcases hlast : (h.filter (fun m => m.role == .user)).getLast? with _ | m'
      · rw [hlast]
        rcases hd with hd | ⟨x, hd⟩ <;> subst hd <;> rfl
      · rw [hlast]
        rfl
    · simp only [List.foldl_cons, List.foldl_nil, hm, if_false]
      have hfilter : List.filter (fun m => m.role == .user) [m] = [] := by
        simp [List.filter, hm]
      rw [hfilter, List.append_nil]
      exact ih d hd

/-- C1 (amended): on every inner-loop turn the request body for the `base`
and `openrouter` providers carries the full History, serialized in order as
`{"role", "content"}` message dicts; for `gemini` the request carries only
the content of the last user message of the History (the dict comprehension
keeps reassigning the single `"parts"` key and drops system and assistant
messages), or an empty dict when there is no user message. -/
theorem request_history_content (modelName : String) (history : List Message) :
    build_request "base" modelName history
      = .obj [("model", .str modelName), ("messages", .arr (history.map msgToJson))]
    ∧ build_request "openrouter" modelName history
      = .obj [("model", .str modelName), ("messages", .arr (history.map msgToJson))]
    ∧ build_request "gemini" modelName history = gemini_request_spec history := by
  refine ⟨rfl, rfl, ?_⟩
  unfold build_request gemini_request_spec
  rw [if_pos (by decide)]
  rw [gemini_fold_collapses history [] (Or.inl rfl)]
  rcases hlast : (history.filter (fun m => m.role == .user)).getLast? with _ | m <;>
    rw [hlast]

/-- C1 counterexample: with the `gemini` provider, after the turn
`hi` → assistant `yo` → user `again`, the request sent at the next
`SEND_TO_MODEL` await (trace index 3) does not contain the assistant message
`yo` that was appended to the History — no string leaf of the request equals
`yo`; the claim asserts every appended message is represented in the body
for every provider. -/
theorem gemini_request_omits_history :
    ((chat_with_bot_sim "gemini" "m" ["hi", "again"]
        [.resp (.obj [("candidates", .arr [.obj [("content", .obj [("parts",
          .arr [.obj [("text", .str "yo")]])])]])])] [] ⟨[], [], []⟩).trace.get? 3).map
      (fun e => (e.kind, decide (Message.mk .assistant "yo" ∈ e.history), e.request))
      = some (.modelReply, true,
          some (Json.obj [("contents", Json.arr [Json.obj [("parts",
            Json.arr [Json.obj [("text", Json.str "again")]])]])]))
    ∧ occursStrFuel 16 "yo" (Json.obj [("contents", Json.arr [Json.obj [("parts",
        Json.arr [Json.obj [("text", Json.str "again")]])]])]) = false :=
  ⟨rfl, by decide⟩



/-! ## The chat command surface -/

/-- C9 counterexample: with the default configuration (empty API key) the
invocation `/chat m` does not enter the Agent Loop — `chat_with_bot` returns
at the API-key guard before the input prompt is ever reached. -/
theorem chat_default_config_no_key :
    chat_command default_config ["m"] = .noKey
    ∧ ∀ mv, ChatOutcome.noKey ≠ ChatOutcome.entered mv :=
  ⟨rfl, fun _ h => ChatOutcome.noConfusion h⟩

theorem outerLoop_trace_head (provider modelName : String) (inputs : List String)
    (nets : List NetEvent) (h : List Message) (fs : FS) (sh : List ShellOutcome) :
    ∃ t, (outerLoop provider modelName inputs nets h fs sh).trace
      = ⟨.userInput, h, none⟩ :: t := by
  rcases inputs with _ | ⟨inp, rest⟩
  · exact ⟨[], rfl⟩
  · simp only [outerLoop]
    by_cases h1 : (strLower inp == "/exit" || strLower inp == "/back") = true
    · simp only [h1, if_true]
      exact ⟨[], rfl⟩
    · simp only [h1, if_false]
      by_cases h2 : (inp == "") = true
      · simp only [h2, if_true]
        exact ⟨_, rfl⟩
      · simp only [h2, if_false]
        cases hk : (innerLoop provider modelName nets
            (h ++ [⟨.user, inp⟩]) fs sh).endk <;>
          simp only [hk] <;> exact ⟨_, rfl⟩

/-- C9 (amended): for a well-formed configuration — a JSON object whose
`providers` value is an object, whose `default_provider` is a string `p`,
and whose providers entry for `p` is an object — `/chat [model]` enters the
Agent Loop (reaching the await of the user's chat input, with the history
holding the single system message) precisely when the resolved model name
(argument, else stored default) is truthy and not the placeholder
`default-model`, `p` has a chat URL, and the stored API key is truthy; in
each failing case the command instead resolves to the corresponding
missing-model, missing-URL or missing-key error return and goes back to the
main prompt without entering the loop. -/
theorem chat_enters_loop_when_configured
    (cm pm pcm : List (String × Json)) (p : String) (args : List String) (mv : Json)
    (hdp : List.lookup "default_provider" cm = some (.str p))
    (hprov : List.lookup "providers" cm = some (.obj pm))
    (hpc : List.lookup p pm = some (.obj pcm))
    (hmv : mv = (match args.head? with
                 | some a => Json.str a
                 | none => (List.lookup "model" pcm).getD .null)) :
    ((pyTruthy mv = false ∨ jsonEqStr mv "default-model" = true) →
        chat_command (.obj cm) args = .noModel)
    ∧ (pyTruthy mv = true → jsonEqStr mv "default-model" = false →
        provider_chat_url p = none →
        chat_command (.obj cm) args = .noUrl)
    ∧ (∀ u, pyTruthy mv = true → jsonEqStr mv "default-model" = false →
        provider_chat_url p = some u →
        pyTruthy ((List.lookup "api_key" pcm).getD .null) = false →
        chat_command (.obj cm) args = .noKey)
    ∧ (∀ u, pyTruthy mv = true → jsonEqStr mv "default-model" = false →
        provider_chat_url p = some u →
        pyTruthy ((List.lookup "api_key" pcm).getD .null) = true →
        chat_command (.obj cm) args = .entered mv)
    ∧ (∀ (provider modelName : String) (inputs : List String) (nets : List NetEvent)
        (shells : List ShellOutcome) (fs : FS),
        (chat_with_bot_sim provider modelName inputs nets shells fs).trace.head?
          = some ⟨.userInput, [⟨.system, SYSTEM_PROMPT⟩], none⟩) := by
  refine ⟨?_, ?_, ?_, ?_, ?_⟩
  · intro hcond
    subst hmv
    rcases args with _ | ⟨a, rest⟩ <;>
      simp only [List.head?] at hcond <;>
      rcases hcond with hc | hc <;>
        simp [chat_command, hdp, hprov, hpc, hc]
  · intro hmvT hmvD hurl
    subst hmv
    rcases args with _ | ⟨a, rest⟩ <;>
      simp only [List.head?] at hmvT hmvD <;>
      simp [chat_command, hdp, hprov, hpc, hmvT, hmvD, hurl]
  · intro u hmvT hmvD hurl hkeyF
    subst hmv
    rcases args with _ | ⟨a, rest⟩ <;>
      simp only [List.head?] at hmvT hmvD <;>
      simp [chat_command, hdp, hprov, hpc, hmvT, hmvD, hurl, hkeyF]
  · intro u hmvT hmvD hurl hkeyT
    subst hmv
    rcases args with _ | ⟨a, rest⟩ <;>
      simp only [List.head?] at hmvT hmvD <;>
      simp [chat_command, hdp, hprov, hpc, hmvT, hmvD, hurl, hkeyT]
  · intro provider modelName inputs nets shells fs
    obtain ⟨t, ht⟩ := outerLoop_trace_head provider modelName inputs nets
      [⟨.system, SYSTEM_PROMPT⟩] fs shells
    unfold chat_with_bot_sim
    rw [ht]
    rfl


/-- Witness for C9 (amended): with a non-empty API key for the `base`
provider the model argument enters the loop, while the placeholder model
name is rejected on the same configuration. -/
theorem chat_enters_loop_when_configured_witness :
    chat_command (.obj [("default_provider", .str "base"),
      ("providers", .obj [("base", .obj [("api_key", .str "kk"), ("model", .str "mm")])])])
      ["mymodel"] = .entered (.str "mymodel")
    ∧ chat_command (.obj [("default_provider", .str "base"),
      ("providers", .obj [("base", .obj [("api_key", .str "kk"), ("model", .str "mm")])])])
      ["default-model"] = .noModel :=
  ⟨(chat_enters_loop_when_configured
      [("default_provider", .str "base"),
       ("providers", .obj [("base", .obj [("api_key", .str "kk"), ("model", .str "mm")])])]
      [("base", .obj [("api_key", .str "kk"), ("model", .str "mm")])]
      [("api_key", .str "kk"), ("model", .str "mm")]
      "base" ["mymodel"] (.str "mymodel")
      rfl rfl rfl rfl).2.2.2.1 "https://text.pollinations.ai/openai"
      (by decide) (by decide) rfl (by decide),
   (chat_enters_loop_when_configured
      [("default_provider", .str "base"),
       ("providers", .obj [("base", .obj [("api_key", .str "kk"), ("model", .str "mm")])])]
      [("base", .obj [("api_key", .str "kk"), ("model", .str "mm")])]
      [("api_key", .str "kk"), ("model", .str "mm")]
      "base" ["default-model"] (.str "default-model")
      rfl rfl rfl rfl).1 (Or.inr (by decide))⟩



/-! ## History invariants of the agent loop -/

theorem patFold_append (l1 l2 : List Message) (s : Nat) :
    patFold s (l1 ++ l2)
      = (match patFold s l1 with
         | some s' => patFold s' l2
         | none => none) := by
  induction l1 generalizing s with
  | nil => rfl
  | cons m l ih =>
    simp only [List.cons_append, patFold]
    cases hr : roleStep s m.role <;> simp [hr, ih]

theorem oneSystemAt0_append (h sfx : List Message)
    (h1 : oneSystemAt0 h = true)
    (h2 : sfx.all (fun m => !(m.role == .system)) = true) :
    oneSystemAt0 (h ++ sfx) = true := by
  rcases h with _ | ⟨m, rest⟩
  · simp [oneSystemAt0] at h1
  · simp only [oneSystemAt0, List.cons_append, Bool.and_eq_true] at h1 ⊢
    refine ⟨h1.1, ?_⟩
    rw [List.all_append, Bool.and_eq_true]
    exact ⟨h1.2, h2⟩

theorem innerLoop_struct (provider modelName : String) :
    ∀ (nets : List NetEvent) (h : List Message) (fs : FS) (sh : List ShellOutcome),
      (∀ e ∈ (innerLoop provider modelName nets h fs sh).trace,
        ∃ sfx, e.history = h ++ sfx ∧ sfx.all (fun m => !(m.role == .system)) = true)
      ∧ (∃ sfx, (innerLoop provider modelName nets h fs sh).history = h ++ sfx
          ∧ sfx.all (fun m => !(m.role == .system)) = true)
      ∧ (innerLoop provider modelName nets h fs sh).trace.head?
          = some ⟨.modelReply, h, some (build_request provider modelName h)⟩
      ∧ List.Chain' (fun a b => a.history <+: b.history)
          ((innerLoop provider modelName nets h fs sh).trace)
      ∧ (∀ e ∈ (innerLoop provider modelName nets h fs sh).trace,
          e.history <+: (innerLoop provider modelName nets h fs sh).history) := by
  intro nets
  induction nets with
  | nil =>
    intro h fs sh
    refine ⟨?_, ⟨[], by simp [innerLoop]⟩, rfl, ?_, ?_⟩
    · intro e he
      simp [innerLoop] at he
      exact ⟨[], by simp [he]⟩
    · simp [innerLoop]
    · intro e he
      simp [innerLoop] at he
      simp [he, innerLoop]
  | cons net nets ih =>
    intro h fs sh
    rcases net with _ | body
    · refine ⟨?_, ⟨[], by simp [innerLoop]⟩, rfl, ?_, ?_⟩
      · intro e he
        simp [innerLoop] at he
        exact ⟨[], by simp [he]⟩
      · simp [innerLoop]
      · intro e he
        simp [innerLoop] at he
        simp [he, innerLoop]
    · rcases hex : extract_reply provider body with exc | v
      · rcases exc <;>
        · refine ⟨?_, ⟨[], by simp [innerLoop, hex]⟩, by simp [innerLoop, hex], ?_, ?_⟩
          · intro e he
            simp [innerLoop, hex] at he
            exact ⟨[], by simp [he]⟩
          · simp [innerLoop, hex]
          · intro e he
            simp [innerLoop, hex] at he
            simp [he, innerLoop, hex]
      · rcases v with _ | b | lx | s | l | m
        case str =>
          rcases hhr : handle_reply fs sh s with _ | _ | _ | ⟨fs', sh', tr⟩ | _ | _
          case tool =>
            obtain ⟨ih1, ih2, ih3, ih4, ih5⟩ :=
              ih (h ++ [⟨.assistant, s⟩, ⟨.user, "TOOL_RESULT: " ++ tr⟩]) fs' sh'
            have hun : innerLoop provider modelName (.resp body :: nets) h fs sh =
              ⟨(innerLoop provider modelName nets
                  (h ++ [⟨.assistant, s⟩, ⟨.user, "TOOL_RESULT: " ++ tr⟩]) fs' sh').nets,
               (innerLoop provider modelName nets
                  (h ++ [⟨.assistant, s⟩, ⟨.user, "TOOL_RESULT: " ++ tr⟩]) fs' sh').history,
               (innerLoop provider modelName nets
                  (h ++ [⟨.assistant, s⟩, ⟨.user, "TOOL_RESULT: " ++ tr⟩]) fs' sh').fs,
               (innerLoop provider modelName nets
                  (h ++ [⟨.assistant, s⟩, ⟨.user, "TOOL_RESULT: " ++ tr⟩]) fs' sh').shells,
               ⟨.modelReply, h, some (build_request provider modelName h)⟩ ::
                 (innerLoop provider modelName nets
                   (h ++ [⟨.assistant, s⟩, ⟨.user, "TOOL_RESULT: " ++ tr⟩]) fs' sh').trace,
               (innerLoop provider modelName nets
                  (h ++ [⟨.assistant, s⟩, ⟨.user, "TOOL_RESULT: " ++ tr⟩]) fs' sh').endk⟩ :=
              innerLoop_tool_step provider modelName body s nets h fs fs' sh sh' tr hex hhr
            rw [hun]
            refine ⟨?_, ?_, rfl, ?_, ?_⟩
            · intro e he
              simp only [List.mem_cons] at he
              rcases he with he | he
              · exact ⟨[], by simp [he]⟩
              · obtain ⟨sfx, hs1, hs2⟩ := ih1 e he
                refine ⟨[⟨.assistant, s⟩, ⟨.user, "TOOL_RESULT: " ++ tr⟩] ++ sfx, ?_, ?_⟩
                · simp [hs1]
                · rw [List.all_append, Bool.and_eq_true]
                  exact ⟨rfl, hs2⟩
            · obtain ⟨sfx, hs1, hs2⟩ := ih2
              refine ⟨[⟨.assistant, s⟩, ⟨.user, "TOOL_RESULT: " ++ tr⟩] ++ sfx, ?_, ?_⟩
              · simp [hs1]
              · rw [List.all_append, Bool.and_eq_true]
                exact ⟨rfl, hs2⟩
            · refine List.Chain'.cons' ih4 ?_
              intro y hy
              rw [ih3] at hy
              simp at hy
              subst hy
              simp
            · intro e he
              simp only [List.mem_cons] at he
              rcases he with he | he
              · obtain ⟨sfx, hs1, _⟩ := ih2
                rw [he, hs1]
                simp
              · exact ih5 e he
          all_goals
            exact ⟨fun e he => ⟨[], by simp [innerLoop, hex, hhr] at he; simp [he], rfl⟩,
              ⟨[⟨.assistant, s⟩], by simp [innerLoop, hex, hhr], rfl⟩,
              by simp [innerLoop, hex, hhr],
              by simp [innerLoop, hex, hhr],
              fun e he => by
                simp [innerLoop, hex, hhr] at he
                simp [he, innerLoop, hex, hhr]⟩
        all_goals
          exact ⟨fun e he => ⟨[], by simp [innerLoop, hex] at he; simp [he], rfl⟩,
            ⟨[], by simp [innerLoop, hex], rfl⟩,
            by simp [innerLoop, hex],
            by simp [innerLoop, hex],
            fun e he => by
              simp [innerLoop, hex] at he
              simp [he, innerLoop, hex]⟩


theorem mem_of_mem_getLastOpt {α : Type} {l : List α} {x : α}
    (h : x ∈ l.getLast?) : x ∈ l := by
  obtain ⟨hne, hx⟩ := List.mem_getLast?_eq_getLast h
  rw [hx]
  exact List.getLast_mem hne

theorem outerLoop_cons_exit (provider modelName inp : String) (rest : List String)
    (nets : List NetEvent) (h : List Message) (fs : FS) (sh : List ShellOutcome)
    (hexit : (strLower inp == "/exit" || strLower inp == "/back") = true) :
    outerLoop provider modelName (inp :: rest) nets h fs sh
      = ⟨[⟨.userInput, h, none⟩], h, .exited⟩ := by
  simp [outerLoop, hexit]

theorem outerLoop_cons_empty (provider modelName inp : String) (rest : List String)
    (nets : List NetEvent) (h : List Message) (fs : FS) (sh : List ShellOutcome)
    (hexit : ¬((strLower inp == "/exit" || strLower inp == "/back") = true))
    (hempty : (inp == "") = true) :
    outerLoop provider modelName (inp :: rest) nets h fs sh
      = ⟨⟨.userInput, h, none⟩ :: (outerLoop provider modelName rest nets h fs sh).trace,
         (outerLoop provider modelName rest nets h fs sh).history,
         (outerLoop provider modelName rest nets h fs sh).endk⟩ := by
  simp [outerLoop, hexit, hempty]

theorem outerLoop_cons_cont (provider modelName inp : String) (rest : List String)
    (nets : List NetEvent) (h : List Message) (fs : FS) (sh : List ShellOutcome)
    (hexit : ¬((strLower inp == "/exit" || strLower inp == "/back") = true))
    (hempty : ¬((inp == "") = true))
    (hk : (innerLoop provider modelName nets (h ++ [⟨.user, inp⟩]) fs sh).endk = .broke
        ∨ (innerLoop provider modelName nets (h ++ [⟨.user, inp⟩]) fs sh).endk = .errored) :
    outerLoop provider modelName (inp :: rest) nets h fs sh
      = ⟨⟨.userInput, h, none⟩ ::
          ((innerLoop provider modelName nets (h ++ [⟨.user, inp⟩]) fs sh).trace ++
            (outerLoop provider modelName rest
              (innerLoop provider modelName nets (h ++ [⟨.user, inp⟩]) fs sh).nets
              (innerLoop provider modelName nets (h ++ [⟨.user, inp⟩]) fs sh).history
              (innerLoop provider modelName nets (h ++ [⟨.user, inp⟩]) fs sh).fs
              (innerLoop provider modelName nets (h ++ [⟨.user, inp⟩]) fs sh).shells).trace),
         (outerLoop provider modelName rest
           (innerLoop provider modelName nets (h ++ [⟨.user, inp⟩]) fs sh).nets
           (innerLoop provider modelName nets (h ++ [⟨.user, inp⟩]) fs sh).history
           (innerLoop provider modelName nets (h ++ [⟨.user, inp⟩]) fs sh).fs
           (innerLoop provider modelName nets (h ++ [⟨.user, inp⟩]) fs sh).shells).history,
         (outerLoop provider modelName rest
           (innerLoop provider modelName nets (h ++ [⟨.user, inp⟩]) fs sh).nets
           (innerLoop provider modelName nets (h ++ [⟨.user, inp⟩]) fs sh).history
           (innerLoop provider modelName nets (h ++ [⟨.user, inp⟩]) fs sh).fs
           (innerLoop provider modelName nets (h ++ [⟨.user, inp⟩]) fs sh).shells).endk⟩ := by
  rcases hk with hk | hk <;> simp [outerLoop, hexit, hempty, hk]

theorem outerLoop_cons_crashed (provider modelName inp : String) (rest : List String)
    (nets : List NetEvent) (h : List Message) (fs : FS) (sh : List ShellOutcome)
    (hexit : ¬((strLower inp == "/exit" || strLower inp == "/back") = true))
    (hempty : ¬((inp == "") = true))
    (hk : (innerLoop provider modelName nets (h ++ [⟨.user, inp⟩]) fs sh).endk = .crashed) :
    outerLoop provider modelName (inp :: rest) nets h fs sh
      = ⟨⟨.userInput, h, none⟩ ::
          (innerLoop provider modelName nets (h ++ [⟨.user, inp⟩]) fs sh).trace,
         (innerLoop provider modelName nets (h ++ [⟨.user, inp⟩]) fs sh).history,
         .crashed⟩ := by
  simp [outerLoop, hexit, hempty, hk]

theorem outerLoop_cons_starved (provider modelName inp : String) (rest : List String)
    (nets : List NetEvent) (h : List Message) (fs : FS) (sh : List ShellOutcome)
    (hexit : ¬((strLower inp == "/exit" || strLower inp == "/back") = true))
    (hempty : ¬((inp == "") = true))
    (hk : (innerLoop provider modelName nets (h ++ [⟨.user, inp⟩]) fs sh).endk = .starved
        ∨ (innerLoop provider modelName nets (h ++ [⟨.user, inp⟩]) fs sh).endk = .exited) :
    outerLoop provider modelName (inp :: rest) nets h fs sh
      = ⟨⟨.userInput, h, none⟩ ::
          (innerLoop provider modelName nets (h ++ [⟨.user, inp⟩]) fs sh).trace,
         (innerLoop provider modelName nets (h ++ [⟨.user, inp⟩]) fs sh).history,
         .starved⟩ := by
  rcases hk with hk | hk <;> simp [outerLoop, hexit, hempty, hk]


theorem outerLoop_struct (provider modelName : String) :
    ∀ (inputs : List String) (nets : List NetEvent) (h : List Message)
      (fs : FS) (sh : List ShellOutcome),
      oneSystemAt0 h = true →
      (∀ e ∈ (outerLoop provider modelName inputs nets h fs sh).trace,
        oneSystemAt0 e.history = true)
      ∧ List.Chain' (fun a b => a.history <+: b.history)
          ((outerLoop provider modelName inputs nets h fs sh).trace)
      ∧ (outerLoop provider modelName inputs nets h fs sh).trace.head?
          = some ⟨.userInput, h, none⟩ := by
  intro inputs
  induction inputs with
  | nil =>
    intro nets h fs sh hone
    refine ⟨?_, ?_, rfl⟩
    · intro e he
      simp only [outerLoop, List.mem_singleton] at he
      simp [he, hone]
    · simp [outerLoop]
  | cons inp rest ihO =>
    intro nets h fs sh hone
    by_cases hexit : (strLower inp == "/exit" || strLower inp == "/back") = true
    · rw [outerLoop_cons_exit provider modelName inp rest nets h fs sh hexit]
      refine ⟨?_, ?_, rfl⟩
      · intro e he
        simp only [List.mem_singleton] at he
        simp [he, hone]
      · simp
    · by_cases hempty : (inp == "") = true
      · rw [outerLoop_cons_empty provider modelName inp rest nets h fs sh hexit hempty]
        obtain ⟨ih1, ih2, ih3⟩ := ihO nets h fs sh hone
        refine ⟨?_, ?_, rfl⟩
        · intro e he
          dsimp only at he
          rcases List.mem_cons.mp he with he | he
          · simp [he, hone]
          · exact ih1 e he
        · dsimp only
          refine List.Chain'.cons' ih2 ?_
          intro y hy
          rw [ih3] at hy
          simp at hy
          subst hy
          exact List.prefix_rfl
      · obtain ⟨in1, in2, in3, in4, in5⟩ :=
          innerLoop_struct provider modelName nets (h ++ [⟨.user, inp⟩]) fs sh
        have hone2 : oneSystemAt0 (h ++ [⟨.user, inp⟩]) = true :=
          oneSystemAt0_append h [⟨.user, inp⟩] hone rfl
        have honeIo : oneSystemAt0
            (innerLoop provider modelName nets (h ++ [⟨.user, inp⟩]) fs sh).history
              = true := by
          obtain ⟨sfx, hs1, hs2⟩ := in2
          rw [hs1]
          exact oneSystemAt0_append _ _ hone2 hs2
        have hInTrOne : ∀ e ∈ (innerLoop provider modelName nets
            (h ++ [⟨.user, inp⟩]) fs sh).trace, oneSystemAt0 e.history = true := by
          intro e he
          obtain ⟨sfx, hs1, hs2⟩ := in1 e he
          rw [hs1]
          exact oneSystemAt0_append _ _ hone2 hs2
        have hne : (innerLoop provider modelName nets
            (h ++ [⟨.user, inp⟩]) fs sh).trace ≠ [] := by
          intro hc
          rw [hc] at in3
          simp at in3
        rcases hk : (innerLoop provider modelName nets (h ++ [⟨.user, inp⟩]) fs sh).endk
        · rw [outerLoop_cons_cont provider modelName inp rest nets h fs sh hexit hempty
            (Or.inl hk)]
          obtain ⟨o1, o2, o3⟩ := ihO
            (innerLoop provider modelName nets (h ++ [⟨.user, inp⟩]) fs sh).nets
            (innerLoop provider modelName nets (h ++ [⟨.user, inp⟩]) fs sh).history
            (innerLoop provider modelName nets (h ++ [⟨.user, inp⟩]) fs sh).fs
            (innerLoop provider modelName nets (h ++ [⟨.user, inp⟩]) fs sh).shells
            honeIo
          refine ⟨?_, ?_, rfl⟩
          · intro e he
            dsimp only at he
            rcases List.mem_cons.mp he with he | he
            · simp [he, hone]
            · rcases List.mem_append.mp he with he | he
              · exact hInTrOne e he
              · exact o1 e he
          · dsimp only
            refine List.Chain'.cons' ?_ ?_
            · rw [List.chain'_append]
              refine ⟨in4, o2, ?_⟩
              intro x hx y hy
              rw [o3] at hy
              simp at hy
              subst hy
              exact in5 x (mem_of_mem_getLastOpt hx)
            · intro y hy
              rw [List.head?_append_of_ne_nil _ hne, in3] at hy
              simp at hy
              subst hy
              simp
        · rw [outerLoop_cons_cont provider modelName inp rest nets h fs sh hexit hempty
            (Or.inr hk)]
          obtain ⟨o1, o2, o3⟩ := ihO
            (innerLoop provider modelName nets (h ++ [⟨.user, inp⟩]) fs sh).nets
            (innerLoop provider modelName nets (h ++ [⟨.user, inp⟩]) fs sh).history
            (innerLoop provider modelName nets (h ++ [⟨.user, inp⟩]) fs sh).fs
            (innerLoop provider modelName nets (h ++ [⟨.user, inp⟩]) fs sh).shells
            honeIo
          refine ⟨?_, ?_, rfl⟩
          · intro e he
            dsimp only at he
            rcases List.mem_cons.mp he with he | he
            · simp [he, hone]
            · rcases List.mem_append.mp he with he | he
              · exact hInTrOne e he
              · exact o1 e he
          · dsimp only
            refine List.Chain'.cons' ?_ ?_
            · rw [List.chain'_append]
              refine ⟨in4, o2, ?_⟩
              intro x hx y hy
              rw [o3] at hy
              simp at hy
              subst hy
              exact in5 x (mem_of_mem_getLastOpt hx)
            · intro y hy
              rw [List.head?_append_of_ne_nil _ hne, in3] at hy
              simp at hy
              subst hy
              simp
        · rw [outerLoop_cons_crashed provider modelName inp rest nets h fs sh hexit hempty hk]
          refine ⟨?_, ?_, rfl⟩
          · intro e he
            dsimp only at he
            rcases List.mem_cons.mp he with he | he
            · simp [he, hone]
            · exact hInTrOne e he
          · dsimp only
            refine List.Chain'.cons' in4 ?_
            intro y hy
            rw [in3] at hy
            simp at hy
            subst hy
            simp
        · rw [outerLoop_cons_starved provider modelName inp rest nets h fs sh hexit hempty
            (Or.inl hk)]
          refine ⟨?_, ?_, rfl⟩
          · intro e he
            dsimp only at he
            rcases List.mem_cons.mp he with he | he
            · simp [he, hone]
            · exact hInTrOne e he
          · dsimp only
            refine List.Chain'.cons' in4 ?_
            intro y hy
            rw [in3] at hy
            simp at hy
            subst hy
            simp
        · rw [outerLoop_cons_starved provider modelName inp rest nets h fs sh hexit hempty
            (Or.inr hk)]
          refine ⟨?_, ?_, rfl⟩
          · intro e he
            dsimp only at he
            rcases List.mem_cons.mp he with he | he
            · simp [he, hone]
            · exact hInTrOne e he
          · dsimp only
            refine List.Chain'.cons' in4 ?_
            intro y hy
            rw [in3] at hy
            simp at hy
            subst hy
            simp


theorem goodNetB_resp (provider : String) (body : Json)
    (h : goodNetB provider (.resp body) = true) :
    ∃ s, extract_reply provider body = .ok (.str s) := by
  have h2 : (match extract_reply provider body with
    | Except.ok (Json.str _) => true
    | _ => false) = true := h
  rcases hex : extract_reply provider body with exc | v
  · rw [hex] at h2
    simp at h2
  · rw [hex] at h2
    rcases v with _ | b | lx | s | l | m <;> simp at h2
    exact ⟨s, rfl⟩

theorem innerLoop_resp_break (provider modelName : String) (body : Json) (s : String)
    (nets : List NetEvent) (h : List Message) (fs : FS) (sh : List ShellOutcome)
    (hex : extract_reply provider body = .ok (.str s))
    (hhr3 : handle_reply fs sh s = .plain ∨ handle_reply fs sh s = .askUser
        ∨ handle_reply fs sh s = .finalAnswer) :
    innerLoop provider modelName (.resp body :: nets) h fs sh
      = ⟨nets, h ++ [⟨.assistant, s⟩], fs, sh,
         [⟨.modelReply, h, some (build_request provider modelName h)⟩], .broke⟩ := by
  rcases hhr3 with h3 | h3 | h3 <;> simp [innerLoop, hex, h3]

theorem innerLoop_resp_crash (provider modelName : String) (body : Json) (s : String)
    (nets : List NetEvent) (h : List Message) (fs : FS) (sh : List ShellOutcome)
    (hex : extract_reply provider body = .ok (.str s))
    (hhr : handle_reply fs sh s = .crash) :
    innerLoop provider modelName (.resp body :: nets) h fs sh
      = ⟨nets, h ++ [⟨.assistant, s⟩], fs, sh,
         [⟨.modelReply, h, some (build_request provider modelName h)⟩], .crashed⟩ := by
  simp [innerLoop, hex, hhr]

theorem innerLoop_resp_starved (provider modelName : String) (body : Json) (s : String)
    (nets : List NetEvent) (h : List Message) (fs : FS) (sh : List ShellOutcome)
    (hex : extract_reply provider body = .ok (.str s))
    (hhr : handle_reply fs sh s = .starved) :
    innerLoop provider modelName (.resp body :: nets) h fs sh
      = ⟨nets, h ++ [⟨.assistant, s⟩], fs, sh,
         [⟨.modelReply, h, some (build_request provider modelName h)⟩], .starved⟩ := by
  simp [innerLoop, hex, hhr]


theorem innerLoop_pattern (provider modelName : String) :
    ∀ (nets : List NetEvent) (sysm : Message) (rest : List Message)
      (fs : FS) (sh : List ShellOutcome),
      nets.all (goodNetB provider) = true →
      patFold 0 rest = some 1 →
      (∀ e ∈ (innerLoop provider modelName nets (sysm :: rest) fs sh).trace,
        ∃ re, e.history = sysm :: re ∧ patFold 0 re = some 1)
      ∧ ((innerLoop provider modelName nets (sysm :: rest) fs sh).endk = .broke →
          ∃ rf, (innerLoop provider modelName nets (sysm :: rest) fs sh).history
            = sysm :: rf ∧ patFold 0 rf = some 2)
      ∧ (innerLoop provider modelName nets (sysm :: rest) fs sh).nets.all
          (goodNetB provider) = true
      ∧ ¬((innerLoop provider modelName nets (sysm :: rest) fs sh).endk = .errored) := by
  intro nets
  induction nets with
  | nil =>
    intro sysm rest fs sh hgood hpat
    refine ⟨?_, ?_, rfl, by simp [innerLoop]⟩
    · intro e he
      simp [innerLoop] at he
      exact ⟨rest, by simp [he], hpat⟩
    · intro hk
      simp [innerLoop] at hk
  | cons net nets ih =>
    intro sysm rest fs sh hgood hpat
    rw [List.all_cons, Bool.and_eq_true] at hgood
    obtain ⟨hg1, hg2⟩ := hgood
    rcases net with _ | body
    · simp [goodNetB] at hg1
    · obtain ⟨s, hex⟩ := goodNetB_resp provider body hg1
      have hpat2 : patFold 0 (rest ++ [Message.mk .assistant s]) = some 2 := by
        rw [patFold_append, hpat]
        rfl
      rcases hhr : handle_reply fs sh s with _ | _ | _ | ⟨fs', sh', tr⟩ | _ | _
      case tool =>
        have hpat3 : patFold 0
            (rest ++ [Message.mk .assistant s, Message.mk .user ("TOOL_RESULT: " ++ tr)])
            = some 1 := by
          rw [patFold_append, hpat]
          rfl
        have hstep := innerLoop_tool_step provider modelName body s nets
          (sysm :: rest) fs fs' sh sh' tr hex hhr
        have hcons : (sysm :: rest) ++
            [Message.mk .assistant s, Message.mk .user ("TOOL_RESULT: " ++ tr)]
            = sysm :: (rest ++
              [Message.mk .assistant s, Message.mk .user ("TOOL_RESULT: " ++ tr)]) := by
          simp
        rw [hcons] at hstep
        obtain ⟨ih1, ih2, ih3, ih4⟩ := ih sysm
          (rest ++ [Message.mk .assistant s, Message.mk .user ("TOOL_RESULT: " ++ tr)])
          fs' sh' hg2 hpat3
        rw [hstep]
        refine ⟨?_, ?_, ih3, ih4⟩
        · intro e he
          dsimp only at he
          rcases List.mem_cons.mp he with he | he
          · exact ⟨rest, by simp [he], hpat⟩
          · exact ih1 e he
        · intro hk
          exact ih2 hk
      case plain =>
        rw [innerLoop_resp_break provider modelName body s nets (sysm :: rest) fs sh hex
          (Or.inl hhr)]
        refine ⟨?_, ?_, hg2, fun hc => EndKind.noConfusion hc⟩
        · intro e he
          dsimp only at he
          rw [List.mem_singleton] at he
          exact ⟨rest, by simp [he], hpat⟩
        · intro _
          exact ⟨rest ++ [Message.mk .assistant s], by simp, hpat2⟩
      case askUser =>
        rw [innerLoop_resp_break provider modelName body s nets (sysm :: rest) fs sh hex
          (Or.inr (Or.inl hhr))]
        refine ⟨?_, ?_, hg2, fun hc => EndKind.noConfusion hc⟩
        · intro e he
          dsimp only at he
          rw [List.mem_singleton] at he
          exact ⟨rest, by simp [he], hpat⟩
        · intro _
          exact ⟨rest ++ [Message.mk .assistant s], by simp, hpat2⟩
      case finalAnswer =>
        rw [innerLoop_resp_break provider modelName body s nets (sysm :: rest) fs sh hex
          (Or.inr (Or.inr hhr))]
        refine ⟨?_, ?_, hg2, fun hc => EndKind.noConfusion hc⟩
        · intro e he
          dsimp only at he
          rw [List.mem_singleton] at he
          exact ⟨rest, by simp [he], hpat⟩
        · intro _
          exact ⟨rest ++ [Message.mk .assistant s], by simp, hpat2⟩
      case crash =>
        rw [innerLoop_resp_crash provider modelName body s nets (sysm :: rest) fs sh hex hhr]
        refine ⟨?_, ?_, hg2, fun hc => EndKind.noConfusion hc⟩
        · intro e he
          dsimp only at he
          rw [List.mem_singleton] at he
          exact ⟨rest, by simp [he], hpat⟩
        · intro hk
          exact absurd hk (fun hc => EndKind.noConfusion hc)
      case starved =>
        rw [innerLoop_resp_starved provider modelName body s nets (sysm :: rest) fs sh hex hhr]
        refine ⟨?_, ?_, hg2, fun hc => EndKind.noConfusion hc⟩
        · intro e he
          dsimp only at he
          rw [List.mem_singleton] at he
          exact ⟨rest, by simp [he], hpat⟩
        · intro hk
          exact absurd hk (fun hc => EndKind.noConfusion hc)


theorem outerLoop_pattern (provider modelName : String) :
    ∀ (inputs : List String) (nets : List NetEvent) (sysm : Message)
      (rest : List Message) (fs : FS) (sh : List ShellOutcome),
      sysm.role = .system →
      nets.all (goodNetB provider) = true →
      (patFold 0 rest = some 0 ∨ patFold 0 rest = some 2) →
      ∀ e ∈ (outerLoop provider modelName inputs nets (sysm :: rest) fs sh).trace,
        historyOk e.history = true := by
  intro inputs
  induction inputs with
  | nil =>
    intro nets sysm rest fs sh hsys hgood hpat e he
    simp [outerLoop] at he
    subst he
    simp only [historyOk, hsys]
    rcases hpat with hp | hp <;> simp [hp]
  | cons inp rest0 ihO =>
    intro nets sysm rest fs sh hsys hgood hpat
    have hOk : historyOk (sysm :: rest) = true := by
      simp only [historyOk, hsys]
      rcases hpat with hp | hp <;> simp [hp]
    by_cases hexit : (strLower inp == "/exit" || strLower inp == "/back") = true
    · rw [outerLoop_cons_exit provider modelName inp rest0 nets (sysm :: rest) fs sh hexit]
      intro e he
      rw [List.mem_singleton] at he
      subst he
      exact hOk
    · by_cases hempty : (inp == "") = true
      · rw [outerLoop_cons_empty provider modelName inp rest0 nets (sysm :: rest) fs sh
          hexit hempty]
        intro e he
        dsimp only at he
        rcases List.mem_cons.mp he with he | he
        · subst he
          exact hOk
        · exact ihO nets sysm rest fs sh hsys hgood hpat e he
      · have hcons : (sysm :: rest) ++ [Message.mk .user inp]
            = sysm :: (rest ++ [Message.mk .user inp]) := by simp
        have hpat1 : patFold 0 (rest ++ [Message.mk .user inp]) = some 1 := by
          rw [patFold_append]
          rcases hpat with hp | hp <;> rw [hp] <;> rfl
        obtain ⟨in1, in2, in3, in4⟩ := innerLoop_pattern provider modelName nets sysm
          (rest ++ [Message.mk .user inp]) fs sh hgood hpat1
        rw [← hcons] at in1 in2 in3 in4
        have hInOk : ∀ e ∈ (innerLoop provider modelName nets
            ((sysm :: rest) ++ [Message.mk .user inp]) fs sh).trace,
            historyOk e.history = true := by
          intro e he
          obtain ⟨re, hre1, hre2⟩ := in1 e he
          rw [hre1]
          simp only [historyOk, hsys]
          simp [hre2]
        rcases hk : (innerLoop provider modelName nets
            ((sysm :: rest) ++ [Message.mk .user inp]) fs sh).endk
        · rw [outerLoop_cons_cont provider modelName inp rest0 nets (sysm :: rest) fs sh
            hexit hempty (Or.inl hk)]
          intro e he
          dsimp only at he
          rcases List.mem_cons.mp he with he | he
          · subst he
            exact hOk
          · rcases List.mem_append.mp he with he | he
            · exact hInOk e he
            · obtain ⟨rf, hrf1, hrf2⟩ := in2 hk
              refine ihO (innerLoop provider modelName nets
                  ((sysm :: rest) ++ [Message.mk .user inp]) fs sh).nets sysm rf
                (innerLoop provider modelName nets
                  ((sysm :: rest) ++ [Message.mk .user inp]) fs sh).fs
                (innerLoop provider modelName nets
                  ((sysm :: rest) ++ [Message.mk .user inp]) fs sh).shells
                hsys in3 (Or.inr hrf2) e ?_
              rw [← hrf1]
              exact he
        · exact absurd hk in4
        · rw [outerLoop_cons_crashed provider modelName inp rest0 nets (sysm :: rest) fs sh
            hexit hempty hk]
          intro e he
          dsimp only at he
          rcases List.mem_cons.mp he with he | he
          · subst he
            exact hOk
          · exact hInOk e he
        · rw [outerLoop_cons_starved provider modelName inp rest0 nets (sysm :: rest) fs sh
            hexit hempty (Or.inl hk)]
          intro e he
          dsimp only at he
          rcases List.mem_cons.mp he with he | he
          · subst he
            exact hOk
          · exact hInOk e he
        · rw [outerLoop_cons_starved provider modelName inp rest0 nets (sysm :: rest) fs sh
            hexit hempty (Or.inr hk)]
          intro e he
          dsimp only at he
          rcases List.mem_cons.mp he with he | he
          · subst he
            exact hOk
          · exact hInOk e he


/-- C2 (amended): at every point where the Agent Loop awaits user input or a
model reply, the History has exactly one system message, at index 0, and the
trace of await-point histories is append-only (each successive snapshot
extends the previous one); the strict user/assistant alternation after the
system message additionally holds at every await point provided no transport
error and no response-shape error occurred in the run.  (After such an error
the unanswered user message is followed by the next turn's user message, so
two user-role messages become adjacent — see the counterexample.) -/
theorem agent_history_invariants (provider modelName : String)
    (inputs : List String) (nets : List NetEvent) (shells : List ShellOutcome)
    (fs : FS) :
    (∀ e ∈ (chat_with_bot_sim provider modelName inputs nets shells fs).trace,
      oneSystemAt0 e.history = true)
    ∧ List.Chain' (fun a b => a.history <+: b.history)
        ((chat_with_bot_sim provider modelName inputs nets shells fs).trace)
    ∧ (nets.all (goodNetB provider) = true →
        ∀ e ∈ (chat_with_bot_sim provider modelName inputs nets shells fs).trace,
          historyOk e.history = true) := by
  obtain ⟨a, b, _⟩ := outerLoop_struct provider modelName inputs nets
    [⟨.system, SYSTEM_PROMPT⟩] fs shells rfl
  refine ⟨a, b, ?_⟩
  intro hgood e he
  exact outerLoop_pattern provider modelName inputs nets ⟨.system, SYSTEM_PROMPT⟩ []
    fs shells rfl hgood (Or.inl rfl) e he

/-- Witness for C2 (amended): one error-free turn (`hi` answered by a plain
`hello`, then `/exit`). -/
theorem agent_history_invariants_witness :
    ([NetEvent.resp (.obj [("choices", .arr [.obj [("message",
        .obj [("content", .str "hello")])]])])].all (goodNetB "base") = true)
    ∧ (∀ e ∈ (chat_with_bot_sim "base" "m" ["hi", "/exit"]
        [NetEvent.resp (.obj [("choices", .arr [.obj [("message",
          .obj [("content", .str "hello")])]])])] [] ⟨[], [], []⟩).trace,
        historyOk e.history = true) :=
  ⟨rfl,
   (agent_history_invariants "base" "m" ["hi", "/exit"]
     [NetEvent.resp (.obj [("choices", .arr [.obj [("message",
       .obj [("content", .str "hello")])]])])] [] ⟨[], [], []⟩).2.2 rfl⟩

/-- C2 counterexample: a transport error leaves the turn's user message
unanswered, and the next turn appends a second consecutive user message:
at the following `SEND_TO_MODEL` await (trace index 3) the History is
`[system, user, user]` — it still has exactly one system message at index 0,
but the claimed strict user/assistant alternation is violated even though
the claim asserts it "regardless of how many transport errors occurred". -/
theorem history_alternation_fails_after_transport_error :
    ((chat_with_bot_sim "base" "m" ["hi", "again"] [NetEvent.fail] []
        ⟨[], [], []⟩).trace.get? 3).map
      (fun e => (e.kind, historyOk e.history, oneSystemAt0 e.history,
        e.history.map (fun m => m.role)))
      = some (.modelReply, false, true, [.system, .user, .user]) := rfl


end Meow
